import Mathlib

/-!
Shallow embedding of the terraforming engine of `src/terraforming.ts`
(class `Terraforming`, spawner-driven variant).

Numbers: the source computes with JavaScript numbers; all arithmetic the
claims depend on (distances compared against thresholds, the parabolic
multiplier, `Math.floor`) is exact on the rationals, so the embedding uses
`ℤ`/`ℚ`.  Each comparison of `Math.sqrt(dx*dx + dz*dz)` with a threshold is
embedded by the exact square-free decision procedures `sqrtGtB`/`sqrtLtB`/
`sqrtLeB`, proved equivalent to the corresponding `Real.sqrt` comparison.

The voxel grid (`world.chunkLattice`) is an external collaborator that can
throw on reads and writes; it is modelled by a finite block store plus
explicit failure sets, so `try/catch` in the source becomes a total
function consulting the failure set.  `Math.random`-driven candidate
generation (an index into the live-spawner list and a rounded x/z offset)
is abstracted by an oracle `RandOracle`; every other part of
`findValidSpawnerPosition` is embedded from the source.
-/

namespace Terraforming

/-- The real value of a rational written through its numerator and
denominator. -/
lemma rat_cast_num_den (r : ℚ) : (r : ℝ) = (r.num : ℝ) / (r.den : ℝ) := by
  rw [Rat.cast_def]

lemma rat_den_pos_real (r : ℚ) : (0 : ℝ) < (r.den : ℝ) := by
  exact_mod_cast r.pos

/-- Decides `r < Real.sqrt s` for `0 ≤ s` without computing square roots,
on the integer numerator/denominator (the rational operations of the
standard library are `irreducible`, so the comparison is phrased on `ℤ`).
Embeds the source's `distanceFromCenter > currentWaveRadius` where
`distanceFromCenter = Math.sqrt(dx*dx + dz*dz)`. -/
def sqrtGtB (s : ℤ) (r : ℚ) : Bool :=
  decide (r.num < 0) ||
    decide (r.num * r.num < s * ((r.den : ℤ) * (r.den : ℤ)))

/-- Decides `Real.sqrt s < r` for `0 ≤ s`.  Embeds `distance < minDistance`. -/
def sqrtLtB (s : ℤ) (r : ℚ) : Bool :=
  decide (0 ≤ r.num) &&
    decide (s * ((r.den : ℤ) * (r.den : ℤ)) < r.num * r.num)

/-- Decides `Real.sqrt s ≤ r` for `0 ≤ s`.  Embeds
`distance <= this.spawnerSpreadRadius`. -/
def sqrtLeB (s : ℤ) (r : ℚ) : Bool :=
  decide (0 ≤ r.num) &&
    decide (s * ((r.den : ℤ) * (r.den : ℤ)) ≤ r.num * r.num)

lemma sqrtGtB_iff (s : ℤ) (r : ℚ) :
    sqrtGtB s r = true ↔ (r : ℝ) < Real.sqrt (s : ℝ) := by
  unfold sqrtGtB
  rw [Bool.or_eq_true, decide_eq_true_eq, decide_eq_true_eq]
  have hd := rat_den_pos_real r
  have hcast := rat_cast_num_den r
  constructor
  · rintro (h | h)
    · have h' : (r : ℝ) < 0 := by
        rw [hcast]
        apply div_neg_of_neg_of_pos _ hd
        exact_mod_cast h
      exact lt_of_lt_of_le h' (Real.sqrt_nonneg _)
    · rcases le_or_lt 0 r.num with h0 | h0
      · have h0' : (0 : ℝ) ≤ (r : ℝ) := by
          rw [hcast]
          apply div_nonneg _ hd.le
          exact_mod_cast h0
        rw [Real.lt_sqrt h0']
        have h' : ((r.num : ℝ)) * ((r.num : ℝ))
            < ((s : ℤ) : ℝ) * (((r.den : ℝ)) * ((r.den : ℝ))) := by exact_mod_cast h
        rw [hcast]
        rw [div_pow]
        rw [div_lt_iff₀ (by positivity)]
        nlinarith [h']
      · have h' : (r : ℝ) < 0 := by
          rw [hcast]
          apply div_neg_of_neg_of_pos _ hd
          exact_mod_cast h0
        exact lt_of_lt_of_le h' (Real.sqrt_nonneg _)
  · intro h
    rcases lt_or_le r.num 0 with h0 | h0
    · exact Or.inl h0
    · right
      have h0' : (0 : ℝ) ≤ (r : ℝ) := by
        rw [hcast]
        apply div_nonneg _ hd.le
        exact_mod_cast h0
      rw [Real.lt_sqrt h0'] at h
      rw [hcast, div_pow, div_lt_iff₀ (by positivity)] at h
      have h' : ((r.num : ℝ)) * ((r.num : ℝ))
          < ((s : ℤ) : ℝ) * (((r.den : ℝ)) * ((r.den : ℝ))) := by nlinarith [h]
      exact_mod_cast h'

lemma sqrtLeB_iff (s : ℤ) (r : ℚ) :
    sqrtLeB s r = true ↔ Real.sqrt (s : ℝ) ≤ (r : ℝ) := by
  unfold sqrtLeB
  rw [Bool.and_eq_true, decide_eq_true_eq, decide_eq_true_eq, Real.sqrt_le_iff]
  have hd := rat_den_pos_real r
  have hcast := rat_cast_num_den r
  constructor
  · rintro ⟨h0, h⟩
    constructor
    · rw [hcast]
      apply div_nonneg _ hd.le
      exact_mod_cast h0
    · have h' : ((s : ℤ) : ℝ) * (((r.den : ℝ)) * ((r.den : ℝ)))
          ≤ ((r.num : ℝ)) * ((r.num : ℝ)) := by exact_mod_cast h
      rw [hcast, div_pow, le_div_iff₀ (by positivity)]
      nlinarith [h']
  · rintro ⟨h0, h⟩
    constructor
    · have h0' : (0 : ℝ) ≤ (r.num : ℝ) := by
        by_contra hc
        push_neg at hc
        rw [hcast] at h0
        nlinarith [div_neg_of_neg_of_pos hc hd]
      exact_mod_cast h0'
    · rw [hcast, div_pow, le_div_iff₀ (by positivity)] at h
      have h' : ((s : ℤ) : ℝ) * (((r.den : ℝ)) * ((r.den : ℝ)))
          ≤ ((r.num : ℝ)) * ((r.num : ℝ)) := by nlinarith [h]
      exact_mod_cast h'

lemma sqrtLtB_iff {s : ℤ} (r : ℚ) (hs : 0 ≤ s) :
    sqrtLtB s r = true ↔ Real.sqrt (s : ℝ) < (r : ℝ) := by
  unfold sqrtLtB
  rw [Bool.and_eq_true, decide_eq_true_eq, decide_eq_true_eq]
  have hd := rat_den_pos_real r
  have hcast := rat_cast_num_den r
  have hs' : (0 : ℝ) ≤ ((s : ℤ) : ℝ) := by exact_mod_cast hs
  constructor
  · rintro ⟨h0, h⟩
    have h' : ((s : ℤ) : ℝ) * (((r.den : ℝ)) * ((r.den : ℝ)))
        < ((r.num : ℝ)) * ((r.num : ℝ)) := by exact_mod_cast h
    have hnum : (0 : ℝ) < (r.num : ℝ) := by
      rcases eq_or_lt_of_le (show (0 : ℝ) ≤ (r.num : ℝ) by exact_mod_cast h0) with he | hl
      · exfalso
        nlinarith [h', hs', hd]
      · exact hl
    have hr : (0 : ℝ) < (r : ℝ) := by
      rw [hcast]
      positivity
    rw [Real.sqrt_lt' hr, hcast, div_pow, lt_div_iff₀ (by positivity)]
    nlinarith [h']
  · intro h
    have hr : (0 : ℝ) < (r : ℝ) :=
      lt_of_le_of_lt (Real.sqrt_nonneg _) h
    have h0 : (0 : ℤ) ≤ r.num := by
      by_contra hc
      push_neg at hc
      have : (r : ℝ) < 0 := by
        rw [hcast]
        apply div_neg_of_neg_of_pos _ hd
        exact_mod_cast hc
      linarith
    rw [Real.sqrt_lt' hr, hcast, div_pow, lt_div_iff₀ (by positivity)] at h
    refine ⟨h0, ?_⟩
    have h' : ((s : ℤ) : ℝ) * (((r.den : ℝ)) * ((r.den : ℝ)))
        < ((r.num : ℝ)) * ((r.num : ℝ)) := by nlinarith [h]
    exact_mod_cast h'

/-! ## The voxel grid collaborator

`world.chunkLattice` with `getBlockId` / `setBlock`.  `blocks` stores the
block type at a coordinate (`none` when no chunk data is present, playing
the role of `null`/`undefined`); `readFails` / `writeFails` are the
coordinates where `getBlockId` / `setBlock` throw. -/
structure Lattice where
  blocks : List ((ℤ × ℤ × ℤ) × ℤ)
  readFails : List (ℤ × ℤ × ℤ)
  writeFails : List (ℤ × ℤ × ℤ)
deriving DecidableEq

/-- The stored block id at a coordinate (the value `getBlockId` returns when
it does not throw). -/
def Lattice.getId (lat : Lattice) (p : ℤ × ℤ × ℤ) : Option ℤ :=
  (lat.blocks.find? (fun e => decide (e.1 = p))).map Prod.snd

/-- Embeds `hasBlockAt`: `getBlockId !== 0 && !== null && !== undefined`, with a
throwing read caught and treated as "no block". -/
def hasBlockAt (lat : Lattice) (x y z : ℤ) : Bool :=
  if (x, y, z) ∈ lat.readFails then false
  else
    match lat.getId (x, y, z) with
    | none => false
    | some id => decide (id ≠ 0)

/-- Embeds `setBlock`: a throwing write is caught (the error is logged) and leaves
the grid unchanged. -/
def setBlock (lat : Lattice) (x y z : ℤ) (blockTypeId : ℤ) : Lattice :=
  if (x, y, z) ∈ lat.writeFails then lat
  else
    { lat with
      blocks := ((x, y, z), blockTypeId) :: lat.blocks.filter (fun e => !decide (e.1 = (x, y, z))) }

/-! ## Configuration and state -/

/-- The `TerraformingOptions` of the source after defaulting (all fields the
claims touch). -/
structure Config where
  centerX : ℤ
  centerZ : ℤ
  size : ℤ
  targetHeight : ℤ
  intervalMs : ℤ
  terraformSize : ℤ
  blockTypeId : ℤ
  elevationSpeed : ℚ
  spawnerBlockId : ℤ
  initialSpawnPoints : List (ℤ × ℤ)
  spawnerSpreadRadius : ℚ
deriving DecidableEq

/-- Embeds `TerraformingTarget`. -/
structure Target where
  x : ℤ
  y : ℤ
  z : ℤ
  startTime : ℤ
  spawnerPosition : Option (ℤ × ℤ × ℤ)
  isActive : Bool
deriving DecidableEq

/-- The mutable state of one `Terraforming` instance that the step logic
touches: the grid, the current target, the completed-target history, the
spawner key set (a JS `Set` iterated in insertion order) and the
initial-spawners flag. -/
structure TState where
  lattice : Lattice
  currentTarget : Option Target
  completedTargets : List Target
  spawnerPositions : List (ℤ × ℤ × ℤ)
  hasInitialSpawners : Bool
deriving DecidableEq

/-- Embeds `Set.add`: appends a key not already present (insertion order). -/
def addKey (l : List (ℤ × ℤ × ℤ)) (p : ℤ × ℤ × ℤ) : List (ℤ × ℤ × ℤ) :=
  if p ∈ l then l else l ++ [p]

/-- Embeds `Set.delete`: removes the key (keys are unique in a JS `Set`). -/
def delKey (l : List (ℤ × ℤ × ℤ)) (p : ℤ × ℤ × ℤ) : List (ℤ × ℤ × ℤ) :=
  l.filter (fun q => !decide (q = p))

/-- Embeds `isWithinBounds` with `halfSize = Math.floor(this.size / 2)`. -/
def halfSize (size : ℤ) : ℤ := Int.fdiv size 2

/-- Embeds `isWithinBounds(x, z)` of the source. -/
def isWithinBounds (cfg : Config) (x z : ℤ) : Bool :=
  decide (cfg.centerX - halfSize cfg.size ≤ x) &&
  decide (x ≤ cfg.centerX + halfSize cfg.size - 1) &&
  decide (cfg.centerZ - halfSize cfg.size ≤ z) &&
  decide (z ≤ cfg.centerZ + halfSize cfg.size - 1)

/-- The set of columns accepted by `isWithinBounds` for a given center and
size, as a finite set. -/
def boundsWindow (cx cz size : ℤ) : Finset (ℤ × ℤ) :=
  Finset.Icc (cx - halfSize size) (cx + halfSize size - 1) ×ˢ
    Finset.Icc (cz - halfSize size) (cz + halfSize size - 1)

lemma mem_boundsWindow (cfg : Config) (x z : ℤ) :
    (x, z) ∈ boundsWindow cfg.centerX cfg.centerZ cfg.size ↔
      isWithinBounds cfg x z = true := by
  unfold boundsWindow isWithinBounds
  simp only [Finset.mem_product, Finset.mem_Icc, Bool.and_eq_true, decide_eq_true_eq]
  tauto

/-- The `for (let y = this.targetHeight + 10; y >= 0; y--)` probe: scan a
column downward, returning the first occupied level, `-1` if none. -/
def scanDown (f : ℤ → Bool) : ℕ → ℤ → ℤ
  | 0, _ => -1
  | n + 1, y => if f y then y else scanDown f n (y - 1)

/-- Embeds `getCurrentHeight(x, z)` of the source. -/
def getCurrentHeight (cfg : Config) (lat : Lattice) (x z : ℤ) : ℤ :=
  scanDown (fun y => hasBlockAt lat x y z) (cfg.targetHeight + 11).toNat
    (cfg.targetHeight + 10)

/-- Embeds `isSpawnerBlockPresent(position)`: the marker is live iff the grid read
succeeds and reports exactly the configured spawner block type. -/
def isSpawnerBlockPresent (cfg : Config) (lat : Lattice) (pos : ℤ × ℤ × ℤ) : Bool :=
  if pos ∈ lat.readFails then false
  else decide (lat.getId pos = some cfg.spawnerBlockId)

/-! ## Growth wave (the per-column math of `terraformStep`) -/

/-- Embeds `Math.floor(this.terraformSize / 2)` — `halfTerraform`, also `maxRadius`. -/
def halfT (cfg : Config) : ℤ := Int.fdiv cfg.terraformSize 2

/-- Squared Euclidean distance of a column from the target center
(`deltaX*deltaX + deltaZ*deltaZ`). -/
def colDsq (t : Target) (c : ℤ × ℤ) : ℤ :=
  (c.1 - t.x) * (c.1 - t.x) + (c.2 - t.z) * (c.2 - t.z)

/-- Embeds `stepsElapsed = Math.floor(timeElapsed / this.intervalMs)` (written
with `Rat.divInt`, which reduces; see `stepsElapsed_eq`). -/
def stepsElapsed (cfg : Config) (t : Target) (now : ℤ) : ℤ :=
  ⌊Rat.divInt (now - t.startTime) cfg.intervalMs⌋

lemma stepsElapsed_eq (cfg : Config) (t : Target) (now : ℤ) :
    stepsElapsed cfg t now
      = ⌊((now - t.startTime : ℤ) : ℚ) / (cfg.intervalMs : ℚ)⌋ := by
  unfold stepsElapsed
  rw [Rat.divInt_eq_div]

/-- Embeds `currentWaveRadius = stepsElapsed * this.elevationSpeed`.  Used in
specification statements; the executable wave gate is `beyondWave`. -/
def waveRadius (cfg : Config) (t : Target) (now : ℤ) : ℚ :=
  (stepsElapsed cfg t now : ℚ) * cfg.elevationSpeed

/-- Decides `k * q < Real.sqrt dsq`, i.e. the source's
`distanceFromCenter > currentWaveRadius` with `currentWaveRadius = k * q`
(`k` elapsed steps, `q` the elevation speed), on integers. -/
def beyondWave (dsq k : ℤ) (q : ℚ) : Bool :=
  decide (k * q.num < 0) ||
    decide ((k * q.num) * (k * q.num) < dsq * ((q.den : ℤ) * (q.den : ℤ)))

lemma beyondWave_iff (dsq k : ℤ) (q : ℚ) :
    beyondWave dsq k q = true ↔ (k : ℝ) * (q : ℝ) < Real.sqrt (dsq : ℝ) := by
  unfold beyondWave
  rw [Bool.or_eq_true, decide_eq_true_eq, decide_eq_true_eq]
  have hd := rat_den_pos_real q
  have hcast : (k : ℝ) * (q : ℝ) = ((k * q.num : ℤ) : ℝ) / ((q.den : ℕ) : ℝ) := by
    rw [rat_cast_num_den q]
    push_cast
    ring
  constructor
  · rintro (h | h)
    · have h' : (k : ℝ) * (q : ℝ) < 0 := by
        rw [hcast]
        apply div_neg_of_neg_of_pos _ hd
        exact_mod_cast h
      exact lt_of_lt_of_le h' (Real.sqrt_nonneg _)
    · rcases le_or_lt 0 (k * q.num) with h0 | h0
      · have h0' : (0 : ℝ) ≤ (k : ℝ) * (q : ℝ) := by
          rw [hcast]
          apply div_nonneg _ hd.le
          exact_mod_cast h0
        rw [Real.lt_sqrt h0', hcast, div_pow, div_lt_iff₀ (by positivity)]
        have h' : (((k * q.num : ℤ)) : ℝ) * (((k * q.num : ℤ)) : ℝ)
            < ((dsq : ℤ) : ℝ) * (((q.den : ℝ)) * ((q.den : ℝ))) := by exact_mod_cast h
        nlinarith [h']
      · have h' : (k : ℝ) * (q : ℝ) < 0 := by
          rw [hcast]
          apply div_neg_of_neg_of_pos _ hd
          exact_mod_cast h0
        exact lt_of_lt_of_le h' (Real.sqrt_nonneg _)
  · intro h
    rcases lt_or_le (k * q.num) 0 with h0 | h0
    · exact Or.inl h0
    · right
      have h0' : (0 : ℝ) ≤ (k : ℝ) * (q : ℝ) := by
        rw [hcast]
        apply div_nonneg _ hd.le
        exact_mod_cast h0
      rw [Real.lt_sqrt h0', hcast, div_pow, div_lt_iff₀ (by positivity)] at h
      have h' : (((k * q.num : ℤ)) : ℝ) * (((k * q.num : ℤ)) : ℝ)
          < ((dsq : ℤ) : ℝ) * (((q.den : ℝ)) * ((q.den : ℝ))) := by nlinarith [h]
      exact_mod_cast h'

lemma floor_int_div (n D : ℤ) (hD : 0 < D) :
    ⌊(n : ℚ) / (D : ℚ)⌋ = Int.fdiv n D := by
  have hDq : ((D : ℤ) : ℚ) = ((D.toNat : ℕ) : ℚ) := by
    have := Int.toNat_of_nonneg hD.le
    exact_mod_cast this.symm
  rw [hDq, Rat.floor_intCast_div_natCast, Int.fdiv_eq_ediv _ hD.le,
    Int.toNat_of_nonneg hD.le]

/-- Embeds `targetHeightForPosition = Math.floor(target.y * max(0, 1 - normalized²))`
with `normalized = distance / maxRadius`, so `normalized² = dsq / maxRadius²`
exactly — written in integer arithmetic; see `targetHeightForPosition_eq`
for the rational form. -/
def targetHeightForPosition (y : ℤ) (dsq m : ℤ) : ℤ :=
  if m * m = 0 then y
  else if m * m ≤ dsq then 0
  else Int.fdiv (y * (m * m - dsq)) (m * m)

lemma targetHeightForPosition_eq (y dsq m : ℤ) :
    targetHeightForPosition y dsq m
      = ⌊(y : ℚ) * max 0 (1 - (dsq : ℚ) / ((m : ℚ) * (m : ℚ)))⌋ := by
  unfold targetHeightForPosition
  by_cases h0 : m * m = 0
  · rw [if_pos h0]
    have hq : ((m : ℚ) * (m : ℚ)) = 0 := by exact_mod_cast h0
    rw [hq, div_zero, sub_zero, max_eq_right (by norm_num : (0 : ℚ) ≤ 1), mul_one,
      Int.floor_intCast]
  · rw [if_neg h0]
    have hmm : (0 : ℤ) < m * m := lt_of_le_of_ne (mul_self_nonneg m) (Ne.symm h0)
    have hmq : (0 : ℚ) < ((m : ℚ) * (m : ℚ)) := by exact_mod_cast hmm
    by_cases hle : m * m ≤ dsq
    · rw [if_pos hle]
      have h1 : (1 : ℚ) ≤ (dsq : ℚ) / ((m : ℚ) * (m : ℚ)) := by
        rw [le_div_iff₀ hmq]
        have h2 : ((m * m : ℤ) : ℚ) ≤ ((dsq : ℤ) : ℚ) := by exact_mod_cast hle
        push_cast at h2 ⊢
        linarith
      rw [max_eq_left (by linarith), mul_zero]
      norm_num
    · rw [if_neg hle]
      push_neg at hle
      have hlt : (dsq : ℚ) / ((m : ℚ) * (m : ℚ)) < 1 := by
        rw [div_lt_one hmq]
        have h2 : ((dsq : ℤ) : ℚ) < ((m * m : ℤ) : ℚ) := by exact_mod_cast hle
        push_cast at h2 ⊢
        linarith
      rw [max_eq_right (by linarith)]
      have hsub : (1 : ℚ) - (dsq : ℚ) / ((m : ℚ) * (m : ℚ))
          = ((m * m - dsq : ℤ) : ℚ) / ((m * m : ℤ) : ℚ) := by
        rw [eq_div_iff (by push_cast; exact ne_of_gt hmq)]
        push_cast
        field_simp
      rw [hsub]
      have hprod : (y : ℚ) * (((m * m - dsq : ℤ) : ℚ) / ((m * m : ℤ) : ℚ))
          = ((y * (m * m - dsq) : ℤ) : ℚ) / ((m * m : ℤ) : ℚ) := by
        push_cast
        ring
      rw [hprod, floor_int_div _ _ hmm]

/-- The loop-carried state of the column loop of `terraformStep`. -/
structure GrowState where
  lattice : Lattice
  modified : ℕ
  complete : Bool
deriving DecidableEq

/-- One iteration of the column loop of `terraformStep`: bounds check, wave
gate, parabolic height, zero-height floor, and the one-level raise.  `r`
counts elapsed steps; the wave radius is `r * elevationSpeed`. -/
def stepColumn (cfg : Config) (t : Target) (r : ℤ) (st : GrowState) (c : ℤ × ℤ) :
    GrowState :=
  if isWithinBounds cfg c.1 c.2 then
    if beyondWave (colDsq t c) r cfg.elevationSpeed then { st with complete := false }
    else if targetHeightForPosition t.y (colDsq t c) (halfT cfg) < 1 then st
    else if getCurrentHeight cfg st.lattice c.1 c.2
        < targetHeightForPosition t.y (colDsq t c) (halfT cfg) then
      { lattice :=
          setBlock st.lattice c.1
            (min (getCurrentHeight cfg st.lattice c.1 c.2 + 1)
              (targetHeightForPosition t.y (colDsq t c) (halfT cfg)))
            c.2 cfg.blockTypeId
        modified := st.modified + 1
        complete := false }
    else st
  else st

/-- Embeds `[a, a+1, ..., b-1]`, the range of one `for (let v = a; v < b; v++)`. -/
def intRange (a b : ℤ) : List ℤ :=
  (List.range (b - a).toNat).map (fun (n : ℕ) => a + (n : ℤ))

/-- The terraform window `[x-half, x+half) × [z-half, z+half)` in the
source's iteration order (x outer, z inner). -/
def windowCols (t : Target) (half : ℤ) : List (ℤ × ℤ) :=
  (intRange (t.x - half) (t.x + half)).flatMap fun x =>
    (intRange (t.z - half) (t.z + half)).map fun z => (x, z)

/-- The whole column loop of `terraformStep` (`blocksModified` starts at 0,
`targetComplete` at `true`). -/
def runGrow (cfg : Config) (lat : Lattice) (t : Target) (now : ℤ) : GrowState :=
  (windowCols t (halfT cfg)).foldl (stepColumn cfg t (stepsElapsed cfg t now))
    ⟨lat, 0, true⟩

/-! ## Spawner registry and selection -/

/-- Embeds `getActiveSpawnerPositions()`: registered keys whose marker block is
still physically present. -/
def getActiveSpawnerPositions (cfg : Config) (lat : Lattice)
    (reg : List (ℤ × ℤ × ℤ)) : List (ℤ × ℤ × ℤ) :=
  reg.filter (fun p => isSpawnerBlockPresent cfg lat p)

/-- Embeds `findSpawnerPositionAt(x, z)`. -/
def findSpawnerPositionAt (cfg : Config) (lat : Lattice)
    (reg : List (ℤ × ℤ × ℤ)) (x z : ℤ) : Option (ℤ × ℤ × ℤ) :=
  (getActiveSpawnerPositions cfg lat reg).find?
    (fun s => decide (s.1 = x) && decide (s.2.2 = z))

/-- Embeds `isValidSpawnerPosition(x, z)`: in bounds, at Euclidean distance ≥ 5
from every live marker, and within the spread radius of at least one. -/
def isValidSpawnerPosition (cfg : Config) (lat : Lattice)
    (reg : List (ℤ × ℤ × ℤ)) (x z : ℤ) : Bool :=
  if isWithinBounds cfg x z then
    if (getActiveSpawnerPositions cfg lat reg).any
        (fun s => sqrtLtB ((x - s.1) * (x - s.1) + (z - s.2.2) * (z - s.2.2)) 5) then
      false
    else
      (getActiveSpawnerPositions cfg lat reg).any
        (fun s => sqrtLeB ((x - s.1) * (x - s.1) + (z - s.2.2) * (z - s.2.2))
          cfg.spawnerSpreadRadius)
  else false

/-- Oracle for the `Math.random()`-driven candidate generation of one
attempt: the random index into the live-spawner list, and the integer
offsets `Math.round(cos(angle)*distance)` / `Math.round(sin(angle)*distance)`
(rounding commutes with adding the integer spawner coordinates). -/
def RandOracle : Type := ℕ → ℕ × ℤ × ℤ

/-- One attempt of the loop of `findValidSpawnerPosition`: pick a random
live spawner (skipping the attempt when the index misses, the source's
`if (!sourceSpawner) continue`), offset it, and keep the candidate only if
`isValidSpawnerPosition` accepts it. -/
def attemptCandidate (cfg : Config) (lat : Lattice) (reg : List (ℤ × ℤ × ℤ))
    (o : RandOracle) (i : ℕ) : Option (ℤ × ℤ) :=
  match (getActiveSpawnerPositions cfg lat reg).get? (o i).1 with
  | none => none
  | some s =>
    let nx := s.1 + (o i).2.1
    let nz := s.2.2 + (o i).2.2
    if isValidSpawnerPosition cfg lat reg nx nz then some (nx, nz) else none

/-- Embeds `findValidSpawnerPosition()`: fail fast when no live spawner exists,
otherwise up to 50 randomized attempts. -/
def findValidSpawnerPosition (cfg : Config) (lat : Lattice)
    (reg : List (ℤ × ℤ × ℤ)) (o : RandOracle) : Option (ℤ × ℤ) :=
  if (getActiveSpawnerPositions cfg lat reg).isEmpty then none
  else (List.range 50).findSome? (attemptCandidate cfg lat reg o)

/-- Embeds `createSpawnerBlock()`: place the marker at
`(x, max(groundHeight + 2, 2), z)` above the current target, register its
key and bind it to the target. -/
def createSpawnerBlock (cfg : Config) (st : TState) : TState :=
  match st.currentTarget with
  | none => st
  | some t =>
    let g := getCurrentHeight cfg st.lattice t.x t.z
    let sy := max (g + 2) 2
    { st with
      lattice := setBlock st.lattice t.x sy t.z cfg.spawnerBlockId
      spawnerPositions := addKey st.spawnerPositions (t.x, sy, t.z)
      currentTarget := some { t with
        spawnerPosition := some (t.x, sy, t.z)
        isActive := true } }

/-- The body of the loop of `createInitialSpawners` for one configured
spawn point: skip it when out of bounds, otherwise place and register its
marker at `(x, max(groundHeight + 2, 2), z)`. -/
def initSpawnStep (cfg : Config) (st : TState) (p : ℤ × ℤ) : TState :=
  if isWithinBounds cfg p.1 p.2 then
    let g := getCurrentHeight cfg st.lattice p.1 p.2
    let sy := max (g + 2) 2
    { st with
      lattice := setBlock st.lattice p.1 sy p.2 cfg.spawnerBlockId
      spawnerPositions := addKey st.spawnerPositions (p.1, sy, p.2) }
  else st

/-- Embeds `createInitialSpawners()`: one pass over the configured points, then
set the flag, then bind the first configured point's marker as the current
target when that first point is in bounds. -/
def createInitialSpawners (cfg : Config) (st : TState) (now : ℤ) : TState :=
  let st1 := cfg.initialSpawnPoints.foldl (initSpawnStep cfg) st
  let st2 := { st1 with hasInitialSpawners := true }
  match cfg.initialSpawnPoints.head? with
  | none => st2
  | some p =>
    if isWithinBounds cfg p.1 p.2 then
      { st2 with
        currentTarget := some
          { x := p.1
            y := cfg.targetHeight
            z := p.2
            startTime := now
            spawnerPosition :=
              findSpawnerPositionAt cfg st2.lattice st2.spawnerPositions p.1 p.2
            isActive := true } }
    else st2

/-- Embeds `selectNewTarget()`. -/
def selectNewTarget (cfg : Config) (st : TState) (now : ℤ) (o : RandOracle) : TState :=
  if st.hasInitialSpawners then
    match findValidSpawnerPosition cfg st.lattice st.spawnerPositions o with
    | none => st
    | some p =>
      createSpawnerBlock cfg
        { st with
          currentTarget := some
            { x := p.1
              y := cfg.targetHeight
              z := p.2
              startTime := now
              spawnerPosition := none
              isActive := true } }
  else createInitialSpawners cfg st now

/-- Does the current target's bound marker sit at `pos`  (the first check of
`findTargetByPosition`)? -/
def currentMatches (st : TState) (pos : ℤ × ℤ × ℤ) : Bool :=
  match st.currentTarget with
  | some t => decide (t.spawnerPosition = some pos)
  | none => false

/-- Deactivate the first completed target bound to `pos` (the in-place
mutation performed through the reference `findTargetByPosition` returns). -/
def deactivateFirst (l : List Target) (pos : ℤ × ℤ × ℤ) : List Target :=
  match l with
  | [] => []
  | t :: ts =>
    if t.spawnerPosition = some pos then
      { t with
        isActive := false
        spawnerPosition := none } :: ts
    else t :: deactivateFirst ts pos

/-- Embeds `onSpawnerDestroyed(position)`: deactivate the target bound to exactly
this marker, re-run selection when that target is the current one, then
drop the key from the registry. -/
def onSpawnerDestroyed (cfg : Config) (st : TState) (pos : ℤ × ℤ × ℤ)
    (now : ℤ) (o : RandOracle) : TState :=
  if currentMatches st pos then
    let st1 :=
      { st with
        currentTarget := st.currentTarget.map
          (fun t => { t with
            isActive := false
            spawnerPosition := none }) }
    let st2 := selectNewTarget cfg st1 now o
    { st2 with spawnerPositions := delKey st2.spawnerPositions pos }
  else if st.completedTargets.any (fun ct => decide (ct.spawnerPosition = some pos)) then
    { st with
      completedTargets := deactivateFirst st.completedTargets pos
      spawnerPositions := delKey st.spawnerPositions pos }
  else { st with spawnerPositions := delKey st.spawnerPositions pos }

/-- The growth phase of `terraformStep`: run the column loop, commit the
grid, and on completion archive the target and select a new one. -/
def runGrowState (cfg : Config) (st : TState) (t : Target) (now : ℤ)
    (o : RandOracle) : TState :=
  let g := runGrow cfg st.lattice t now
  if g.complete then
    selectNewTarget cfg
      { st with
        lattice := g.lattice
        completedTargets := st.completedTargets ++ [t] } now o
  else { st with lattice := g.lattice }

/-- Embeds `terraformStep()`.  `o1` feeds the first selection a step can make
(including the one inside `onSpawnerDestroyed`), `o2` the selection
`terraformStep` runs directly after destruction handling. -/
def terraformStep (cfg : Config) (st : TState) (now : ℤ) (o1 o2 : RandOracle) :
    TState :=
  match st.currentTarget with
  | none => selectNewTarget cfg st now o1
  | some t =>
    if t.isActive then
      match t.spawnerPosition with
      | some pos =>
        if isSpawnerBlockPresent cfg st.lattice pos then
          runGrowState cfg st t now o1
        else
          let st1 := { st with currentTarget := some { t with isActive := false } }
          selectNewTarget cfg (onSpawnerDestroyed cfg st1 pos now o1) now o2
      | none => runGrowState cfg st t now o1
    else selectNewTarget cfg st now o1

/-! ## Lattice lemmas -/

lemma find?_key_filter (l : List ((ℤ × ℤ × ℤ) × ℤ)) (p q : ℤ × ℤ × ℤ) (h : q ≠ p) :
    (l.filter (fun e => !decide (e.1 = p))).find? (fun e => decide (e.1 = q))
      = l.find? (fun e => decide (e.1 = q)) := by
  induction l with
  | nil => rfl
  | cons e l ih =>
    by_cases he : e.1 = p
    · have hq : ¬(e.1 = q) := by
        rw [he]; exact fun hh => h hh.symm
      simp [List.filter_cons, List.find?_cons, he, hq, ih,
        (show ¬(p = q) from fun hh => h hh.symm)]
    · by_cases heq : e.1 = q
      · simp [List.filter_cons, List.find?_cons, he, heq, h]
      · simp [List.filter_cons, List.find?_cons, he, heq, ih, h]

lemma setBlock_readFails (lat : Lattice) (x y z id : ℤ) :
    (setBlock lat x y z id).readFails = lat.readFails := by
  unfold setBlock; split <;> rfl

lemma setBlock_writeFails (lat : Lattice) (x y z id : ℤ) :
    (setBlock lat x y z id).writeFails = lat.writeFails := by
  unfold setBlock; split <;> rfl

lemma setBlock_of_writeFail {lat : Lattice} {x y z : ℤ} (id : ℤ)
    (h : (x, y, z) ∈ lat.writeFails) : setBlock lat x y z id = lat := by
  unfold setBlock; simp [h]

lemma getId_setBlock_ne (lat : Lattice) {x y z : ℤ} (id : ℤ) {q : ℤ × ℤ × ℤ}
    (h : q ≠ (x, y, z)) : (setBlock lat x y z id).getId q = lat.getId q := by
  unfold setBlock
  split
  · rfl
  · unfold Lattice.getId
    simp only [List.find?_cons]
    have : ¬((x, y, z) = q) := fun hh => h hh.symm
    simp only [this, decide_False]
    rw [find?_key_filter _ _ _ h]

lemma getId_setBlock_same (lat : Lattice) {x y z : ℤ} (id : ℤ)
    (h : (x, y, z) ∉ lat.writeFails) :
    (setBlock lat x y z id).getId (x, y, z) = some id := by
  unfold setBlock
  simp only [h, if_false]
  unfold Lattice.getId
  simp [List.find?_cons]

lemma hasBlockAt_congr {lat lat' : Lattice} (x y z : ℤ)
    (hr : lat'.readFails = lat.readFails)
    (hb : lat'.getId (x, y, z) = lat.getId (x, y, z)) :
    hasBlockAt lat' x y z = hasBlockAt lat x y z := by
  unfold hasBlockAt; rw [hr, hb]

lemma hasBlockAt_setBlock_ne (lat : Lattice) {x y z : ℤ} (id : ℤ) {a b c : ℤ}
    (h : (a, b, c) ≠ (x, y, z)) :
    hasBlockAt (setBlock lat x y z id) a b c = hasBlockAt lat a b c :=
  hasBlockAt_congr a b c (setBlock_readFails lat x y z id)
    (getId_setBlock_ne lat id h)

/-! ## scanDown lemmas -/

lemma scanDown_cases (f : ℤ → Bool) : ∀ (n : ℕ) (y : ℤ),
    scanDown f n y = -1 ∨
      (f (scanDown f n y) = true ∧ y - n < scanDown f n y ∧ scanDown f n y ≤ y) := by
  intro n
  induction n with
  | zero => intro y; left; rfl
  | succ n ih =>
    intro y
    unfold scanDown
    split
    · rename_i hy
      right
      exact ⟨hy, by omega, le_refl y⟩
    · rcases ih (y - 1) with h | ⟨h1, h2, h3⟩
      · left; exact h
      · right; exact ⟨h1, by omega, by omega⟩

lemma le_scanDown (f : ℤ → Bool) : ∀ (n : ℕ) (y w : ℤ),
    f w = true → y - n < w → w ≤ y → w ≤ scanDown f n y := by
  intro n
  induction n with
  | zero => intro y w _ h1 h2; omega
  | succ n ih =>
    intro y w hw h1 h2
    unfold scanDown
    split
    · exact h2
    · rename_i hy
      have hne : w ≠ y := fun he => by rw [he] at hw; rw [hw] at hy; exact hy rfl
      exact ih (y - 1) w hw (by omega) (by omega)

lemma scanDown_congr {f g : ℤ → Bool} : ∀ (n : ℕ) (y : ℤ),
    (∀ u, y - n < u → u ≤ y → f u = g u) → scanDown f n y = scanDown g n y := by
  intro n
  induction n with
  | zero => intro y _; rfl
  | succ n ih =>
    intro y h
    unfold scanDown
    rw [h y (by omega) (le_refl y)]
    split
    · rfl
    · exact ih (y - 1) (fun u h1 h2 => h u (by omega) (by omega))

/-! ## getCurrentHeight lemmas -/

lemma getCurrentHeight_congr (cfg : Config) {lat lat' : Lattice} (x z : ℤ)
    (h : ∀ y, hasBlockAt lat' x y z = hasBlockAt lat x y z) :
    getCurrentHeight cfg lat' x z = getCurrentHeight cfg lat x z :=
  scanDown_congr _ _ (fun u _ _ => h u)

lemma getCurrentHeight_setBlock_ne (cfg : Config) (lat : Lattice) {x z a b : ℤ}
    (y id : ℤ) (h : (a, b) ≠ (x, z)) :
    getCurrentHeight cfg (setBlock lat x y z id) a b = getCurrentHeight cfg lat a b :=
  getCurrentHeight_congr cfg a b (fun u =>
    hasBlockAt_setBlock_ne lat id (fun he => by
      injection he with h1 h2
      injection h2 with h2 h3
      exact h (by rw [h1, h3])))

lemma getCurrentHeight_ge_neg_one (cfg : Config) (lat : Lattice) (x z : ℤ) :
    -1 ≤ getCurrentHeight cfg lat x z := by
  rcases scanDown_cases (fun y => hasBlockAt lat x y z) (cfg.targetHeight + 11).toNat
      (cfg.targetHeight + 10) with h | ⟨_, h2, h3⟩
  · unfold getCurrentHeight
    rw [h]
  · unfold getCurrentHeight
    omega

lemma getCurrentHeight_setBlock_le (cfg : Config) (lat : Lattice) (x z y0 id : ℤ) :
    getCurrentHeight cfg (setBlock lat x y0 z id) x z
      ≤ max (getCurrentHeight cfg lat x z) y0 := by
  rcases scanDown_cases (fun y => hasBlockAt (setBlock lat x y0 z id) x y z)
      (cfg.targetHeight + 11).toNat (cfg.targetHeight + 10) with h | ⟨h1, h2, h3⟩
  · unfold getCurrentHeight
    rw [h]
    exact le_max_of_le_left (getCurrentHeight_ge_neg_one cfg lat x z)
  · set r := getCurrentHeight cfg (setBlock lat x y0 z id) x z with hr
    by_cases hry : r = y0
    · rw [hry]; exact le_max_right _ _
    · have hb : hasBlockAt lat x r z = true := by
        rw [← hasBlockAt_setBlock_ne lat id (x := x) (y := y0) (z := z)
          (a := x) (b := r) (c := z) (fun he => by
            injection he with u1 u2
            injection u2 with u2 u3
            exact hry u2)]
        exact h1
      exact le_max_of_le_left (le_scanDown _ _ _ _ hb h2 h3)

/-! ## Per-column analysis of the growth loop -/

/-- The level (if any) that one iteration of the column loop writes for
column `c`, judged against lattice `lat`. -/
def colWrite (cfg : Config) (t : Target) (r : ℤ) (lat : Lattice) (c : ℤ × ℤ) :
    Option ℤ :=
  if isWithinBounds cfg c.1 c.2 then
    if beyondWave (colDsq t c) r cfg.elevationSpeed then none
    else if targetHeightForPosition t.y (colDsq t c) (halfT cfg) < 1 then none
    else if getCurrentHeight cfg lat c.1 c.2
        < targetHeightForPosition t.y (colDsq t c) (halfT cfg) then
      some (min (getCurrentHeight cfg lat c.1 c.2 + 1)
        (targetHeightForPosition t.y (colDsq t c) (halfT cfg)))
    else none
  else none

/-- Whether column `c` lets the completion flag survive one iteration of
the column loop, judged against lattice `lat`. -/
def colOK (cfg : Config) (t : Target) (r : ℤ) (lat : Lattice) (c : ℤ × ℤ) : Bool :=
  if isWithinBounds cfg c.1 c.2 then
    if beyondWave (colDsq t c) r cfg.elevationSpeed then false
    else if targetHeightForPosition t.y (colDsq t c) (halfT cfg) < 1 then true
    else if getCurrentHeight cfg lat c.1 c.2
        < targetHeightForPosition t.y (colDsq t c) (halfT cfg) then false
    else true
  else true

lemma stepColumn_eq (cfg : Config) (t : Target) (r : ℤ) (st : GrowState) (c : ℤ × ℤ) :
    stepColumn cfg t r st c =
      { lattice :=
          match colWrite cfg t r st.lattice c with
          | none => st.lattice
          | some w => setBlock st.lattice c.1 w c.2 cfg.blockTypeId
        modified := st.modified + (if (colWrite cfg t r st.lattice c).isSome then 1 else 0)
        complete := st.complete && colOK cfg t r st.lattice c } := by
  unfold stepColumn colWrite colOK
  split
  · split
    · simp
    · split
      · simp
      · split
        · simp
        · simp
  · simp

lemma stepColumn_getId_ne (cfg : Config) (t : Target) (r : ℤ) (st : GrowState)
    (c : ℤ × ℤ) {x z : ℤ} (h : (x, z) ≠ c) (y : ℤ) :
    (stepColumn cfg t r st c).lattice.getId (x, y, z) = st.lattice.getId (x, y, z) := by
  rw [stepColumn_eq]
  rcases hw : colWrite cfg t r st.lattice c with _ | w
  · rfl
  · exact getId_setBlock_ne st.lattice cfg.blockTypeId (fun he => by
      injection he with h1 h2
      injection h2 with h2 h3
      exact h (by rw [h1, h3]))

lemma stepColumn_readFails (cfg : Config) (t : Target) (r : ℤ) (st : GrowState)
    (c : ℤ × ℤ) :
    (stepColumn cfg t r st c).lattice.readFails = st.lattice.readFails := by
  rw [stepColumn_eq]
  rcases colWrite cfg t r st.lattice c with _ | w
  · rfl
  · exact setBlock_readFails _ _ _ _ _

lemma stepColumn_writeFails (cfg : Config) (t : Target) (r : ℤ) (st : GrowState)
    (c : ℤ × ℤ) :
    (stepColumn cfg t r st c).lattice.writeFails = st.lattice.writeFails := by
  rw [stepColumn_eq]
  rcases colWrite cfg t r st.lattice c with _ | w
  · rfl
  · exact setBlock_writeFails _ _ _ _ _

lemma stepColumn_hasBlockAt_ne (cfg : Config) (t : Target) (r : ℤ) (st : GrowState)
    (c : ℤ × ℤ) {x z : ℤ} (h : (x, z) ≠ c) (y : ℤ) :
    hasBlockAt (stepColumn cfg t r st c).lattice x y z = hasBlockAt st.lattice x y z :=
  hasBlockAt_congr x y z (stepColumn_readFails cfg t r st c)
    (stepColumn_getId_ne cfg t r st c h y)

/-- Functions `colWrite` and `colOK` only look at the lattice through the probed
column, so they are stable under lattice changes away from that column. -/
lemma colWrite_congr (cfg : Config) (t : Target) (r : ℤ) {lat lat' : Lattice}
    (c : ℤ × ℤ) (h : ∀ y, hasBlockAt lat' c.1 y c.2 = hasBlockAt lat c.1 y c.2) :
    colWrite cfg t r lat' c = colWrite cfg t r lat c := by
  unfold colWrite
  rw [getCurrentHeight_congr cfg c.1 c.2 h]

lemma colOK_congr (cfg : Config) (t : Target) (r : ℤ) {lat lat' : Lattice}
    (c : ℤ × ℤ) (h : ∀ y, hasBlockAt lat' c.1 y c.2 = hasBlockAt lat c.1 y c.2) :
    colOK cfg t r lat' c = colOK cfg t r lat c := by
  unfold colOK
  rw [getCurrentHeight_congr cfg c.1 c.2 h]

/-- The written lattice agrees on the written column whenever the two base
lattices agree on that column (and share failure sets). -/
lemma stepColumn_getId_own_congr (cfg : Config) (t : Target) (r : ℤ)
    {st st' : GrowState} (c : ℤ × ℤ)
    (hr : st'.lattice.readFails = st.lattice.readFails)
    (hw : st'.lattice.writeFails = st.lattice.writeFails)
    (hb : ∀ y, st'.lattice.getId (c.1, y, c.2) = st.lattice.getId (c.1, y, c.2)) (y : ℤ) :
    (stepColumn cfg t r st' c).lattice.getId (c.1, y, c.2)
      = (stepColumn cfg t r st c).lattice.getId (c.1, y, c.2) := by
  have hhas : ∀ y, hasBlockAt st'.lattice c.1 y c.2 = hasBlockAt st.lattice c.1 y c.2 :=
    fun y => hasBlockAt_congr c.1 y c.2 hr (hb y)
  rw [stepColumn_eq, stepColumn_eq, colWrite_congr cfg t r c hhas]
  rcases hcw : colWrite cfg t r st.lattice c with _ | w <;> dsimp only
  · exact hb y
  · by_cases hq : (c.1, y, c.2) = (c.1, w, c.2)
    · by_cases hwf : (c.1, w, c.2) ∈ st.lattice.writeFails
      · rw [setBlock_of_writeFail cfg.blockTypeId hwf,
          setBlock_of_writeFail cfg.blockTypeId (by rw [hw]; exact hwf)]
        exact hb y
      · have hwf' : (c.1, w, c.2) ∉ st'.lattice.writeFails := by rw [hw]; exact hwf
        rw [hq]
        rw [getId_setBlock_same st.lattice cfg.blockTypeId hwf,
          getId_setBlock_same st'.lattice cfg.blockTypeId hwf']
    · rw [getId_setBlock_ne st.lattice cfg.blockTypeId hq,
        getId_setBlock_ne st'.lattice cfg.blockTypeId hq]
      exact hb y

lemma all_congr_mem {α : Type} {f g : α → Bool} :
    ∀ (l : List α), (∀ c ∈ l, f c = g c) → l.all f = l.all g := by
  intro l
  induction l with
  | nil => intro _; rfl
  | cons c l ih =>
    intro h
    simp only [List.all_cons]
    rw [h c (List.mem_cons_self c l), ih (fun d hd => h d (List.mem_cons_of_mem c hd))]

/-- Master invariant of the column loop: the final completion flag is the
conjunction over all columns of `colOK` judged against the *initial*
lattice, the loop leaves unvisited columns untouched, and each visited
column ends up exactly as one iteration against the initial lattice leaves
it.  Needs the column list to be duplicate-free (as the window is). -/
lemma foldGrow_spec (cfg : Config) (t : Target) (r : ℤ) :
    ∀ (L : List (ℤ × ℤ)), L.Nodup → ∀ (st : GrowState),
      ((L.foldl (stepColumn cfg t r) st).complete
          = (st.complete && L.all (fun c => colOK cfg t r st.lattice c))) ∧
      ((L.foldl (stepColumn cfg t r) st).lattice.readFails = st.lattice.readFails) ∧
      ((L.foldl (stepColumn cfg t r) st).lattice.writeFails = st.lattice.writeFails) ∧
      (∀ x z, (x, z) ∉ L → ∀ y,
          (L.foldl (stepColumn cfg t r) st).lattice.getId (x, y, z)
            = st.lattice.getId (x, y, z)) ∧
      (∀ c ∈ L, ∀ y,
          (L.foldl (stepColumn cfg t r) st).lattice.getId (c.1, y, c.2)
            = (stepColumn cfg t r st c).lattice.getId (c.1, y, c.2)) := by
  intro L
  induction L with
  | nil =>
    intro _ st
    exact ⟨by simp, rfl, rfl, fun x z _ y => rfl, fun c hc => absurd hc (by simp)⟩
  | cons c L ih =>
    intro hnd st
    have hcL : c ∉ L := (List.nodup_cons.mp hnd).1
    have hndL : L.Nodup := (List.nodup_cons.mp hnd).2
    set st1 := stepColumn cfg t r st c with hst1
    obtain ⟨ihc, ihrf, ihwf, ihout, ihin⟩ := ih hndL st1
    have hfold : (c :: L).foldl (stepColumn cfg t r) st = L.foldl (stepColumn cfg t r) st1 :=
      rfl
    have h1out : ∀ x z, (x, z) ≠ c → ∀ y,
        st1.lattice.getId (x, y, z) = st.lattice.getId (x, y, z) :=
      fun x z h y => stepColumn_getId_ne cfg t r st c h y
    have h1has : ∀ x z, (x, z) ≠ c → ∀ y,
        hasBlockAt st1.lattice x y z = hasBlockAt st.lattice x y z :=
      fun x z h y => stepColumn_hasBlockAt_ne cfg t r st c h y
    refine ⟨?_, ?_, ?_, ?_, ?_⟩
    · rw [hfold, ihc]
      have hall : L.all (fun d => colOK cfg t r st1.lattice d)
          = L.all (fun d => colOK cfg t r st.lattice d) := by
        refine all_congr_mem L (fun d hd => ?_)
        exact colOK_congr cfg t r d (fun y =>
          h1has d.1 d.2 (by
            intro he
            have hd' : (d.1, d.2) ∈ L := by simpa using hd
            rw [he] at hd'
            exact hcL hd') y)
      rw [hall, hst1, stepColumn_eq]
      dsimp only
      rw [List.all_cons, Bool.and_assoc]
    · rw [hfold, ihrf, stepColumn_readFails]
    · rw [hfold, ihwf, stepColumn_writeFails]
    · intro x z hx y
      have hxc : (x, z) ≠ c := fun he => hx (by rw [he]; exact List.mem_cons_self c L)
      have hxL : (x, z) ∉ L := fun hm => hx (List.mem_cons_of_mem c hm)
      rw [hfold, ihout x z hxL y, h1out x z hxc y]
    · intro d hd y
      rcases List.mem_cons.mp hd with he | hm
      · subst he
        rw [hfold, ihout d.1 d.2 (by simpa using hcL) y]
      · have hdc : d ≠ c := fun he => hcL (he ▸ hm)
        rw [hfold, ihin d hm y]
        exact stepColumn_getId_own_congr cfg t r d
          (stepColumn_readFails cfg t r st c)
          (stepColumn_writeFails cfg t r st c)
          (fun y' => h1out d.1 d.2 (by simpa using hdc) y') y

/-! ## Window lemmas -/

lemma mem_intRange {a b y : ℤ} : y ∈ intRange a b ↔ a ≤ y ∧ y < b := by
  unfold intRange
  constructor
  · intro h
    rcases List.mem_map.mp h with ⟨n, hn, he⟩
    rw [List.mem_range] at hn
    omega
  · intro h
    refine List.mem_map.mpr ⟨(y - a).toNat, ?_, ?_⟩
    · rw [List.mem_range]; omega
    · omega

lemma intRange_nodup (a b : ℤ) : (intRange a b).Nodup := by
  unfold intRange
  refine List.Nodup.map ?_ (List.nodup_range _)
  intro m n h
  have h' : a + (m : ℤ) = a + (n : ℤ) := h
  omega

lemma mem_windowCols {t : Target} {half : ℤ} {c : ℤ × ℤ} :
    c ∈ windowCols t half ↔
      (t.x - half ≤ c.1 ∧ c.1 < t.x + half) ∧ (t.z - half ≤ c.2 ∧ c.2 < t.z + half) := by
  unfold windowCols
  rcases c with ⟨cx, cz⟩
  simp only [List.mem_flatMap, List.mem_map, Prod.mk.injEq]
  constructor
  · rintro ⟨x, hx, z, hz, rfl, rfl⟩
    exact ⟨mem_intRange.mp hx, mem_intRange.mp hz⟩
  · rintro ⟨h1, h2⟩
    exact ⟨cx, mem_intRange.mpr h1, cz, mem_intRange.mpr h2, rfl, rfl⟩

lemma windowCols_nodup (t : Target) (half : ℤ) : (windowCols t half).Nodup := by
  unfold windowCols
  refine List.nodup_flatMap.mpr ⟨fun x _ => ?_, ?_⟩
  · refine List.Nodup.map ?_ (intRange_nodup _ _)
    intro z1 z2 h
    injection h
  · refine (intRange_nodup (t.x - half) (t.x + half)).pairwise_of_forall_ne
      (fun a ha b hb hab => ?_)
    simp only [Function.onFun, List.disjoint_left]
    rintro ⟨px, pz⟩ hpa hpb
    rcases List.mem_map.mp hpa with ⟨za, _, hza⟩
    rcases List.mem_map.mp hpb with ⟨zb, _, hzb⟩
    injection hza with e1 e2
    injection hzb with e3 e4
    exact hab (e1.trans e3.symm)

/-- The completion flag of the whole column loop, against the initial
lattice. -/
lemma runGrow_complete (cfg : Config) (lat : Lattice) (t : Target) (now : ℤ) :
    (runGrow cfg lat t now).complete
      = (windowCols t (halfT cfg)).all
          (fun c => colOK cfg t (stepsElapsed cfg t now) lat c) := by
  have h := (foldGrow_spec cfg t (stepsElapsed cfg t now) (windowCols t (halfT cfg))
    (windowCols_nodup t (halfT cfg)) ⟨lat, 0, true⟩).1
  unfold runGrow
  rw [h]
  simp

lemma colOK_eq_true_iff (cfg : Config) (t : Target) (r : ℤ) (lat : Lattice)
    (c : ℤ × ℤ) :
    colOK cfg t r lat c = true ↔
      (isWithinBounds cfg c.1 c.2 = true →
        beyondWave (colDsq t c) r cfg.elevationSpeed = false ∧
          (targetHeightForPosition t.y (colDsq t c) (halfT cfg) < 1 ∨
            ¬ getCurrentHeight cfg lat c.1 c.2
              < targetHeightForPosition t.y (colDsq t c) (halfT cfg))) := by
  unfold colOK
  by_cases hb : isWithinBounds cfg c.1 c.2 = true
  · by_cases hg : beyondWave (colDsq t c) r cfg.elevationSpeed = true
    · simp [hb, hg]
    · have hg' : beyondWave (colDsq t c) r cfg.elevationSpeed = false := by
        simpa using hg
      by_cases hh : targetHeightForPosition t.y (colDsq t c) (halfT cfg) < 1
      · simp [hb, hg', hh]
      · by_cases hc : getCurrentHeight cfg lat c.1 c.2
            < targetHeightForPosition t.y (colDsq t c) (halfT cfg)
        · simp [hb, hg', hh, hc]
        · simp [hb, hg', hh, hc]
  · simp [hb]

/-! ## Registry and selection helper lemmas -/

lemma mem_addKey_self (l : List (ℤ × ℤ × ℤ)) (p : ℤ × ℤ × ℤ) : p ∈ addKey l p := by
  unfold addKey
  split
  · assumption
  · simp

lemma mem_addKey_of_mem {l : List (ℤ × ℤ × ℤ)} {k : ℤ × ℤ × ℤ} (p : ℤ × ℤ × ℤ)
    (h : k ∈ l) : k ∈ addKey l p := by
  unfold addKey
  split
  · exact h
  · simp [h]

lemma mem_delKey {l : List (ℤ × ℤ × ℤ)} {k p : ℤ × ℤ × ℤ} (h : k ≠ p) :
    k ∈ delKey l p ↔ k ∈ l := by
  unfold delKey
  simp [List.mem_filter, h]

lemma not_mem_delKey_self (l : List (ℤ × ℤ × ℤ)) (p : ℤ × ℤ × ℤ) :
    p ∉ delKey l p := by
  unfold delKey
  simp [List.mem_filter]

lemma initSpawnStep_fields (cfg : Config) (st : TState) (p : ℤ × ℤ) :
    (initSpawnStep cfg st p).currentTarget = st.currentTarget ∧
      (initSpawnStep cfg st p).completedTargets = st.completedTargets ∧
      (initSpawnStep cfg st p).hasInitialSpawners = st.hasInitialSpawners := by
  unfold initSpawnStep
  split <;> exact ⟨rfl, rfl, rfl⟩

lemma initFold_fields (cfg : Config) :
    ∀ (ps : List (ℤ × ℤ)) (st : TState),
      (ps.foldl (initSpawnStep cfg) st).currentTarget = st.currentTarget ∧
        (ps.foldl (initSpawnStep cfg) st).completedTargets = st.completedTargets ∧
        (ps.foldl (initSpawnStep cfg) st).hasInitialSpawners = st.hasInitialSpawners := by
  intro ps
  induction ps with
  | nil => exact fun st => ⟨rfl, rfl, rfl⟩
  | cons p ps ih =>
    intro st
    obtain ⟨h1, h2, h3⟩ := ih (initSpawnStep cfg st p)
    obtain ⟨g1, g2, g3⟩ := initSpawnStep_fields cfg st p
    exact ⟨h1.trans g1, h2.trans g2, h3.trans g3⟩

lemma initSpawnStep_reg_mono (cfg : Config) (st : TState) (p : ℤ × ℤ)
    {k : ℤ × ℤ × ℤ} (h : k ∈ st.spawnerPositions) :
    k ∈ (initSpawnStep cfg st p).spawnerPositions := by
  unfold initSpawnStep
  split
  · exact mem_addKey_of_mem _ h
  · exact h

lemma initFold_reg_mono (cfg : Config) :
    ∀ (ps : List (ℤ × ℤ)) (st : TState) {k : ℤ × ℤ × ℤ},
      k ∈ st.spawnerPositions → k ∈ (ps.foldl (initSpawnStep cfg) st).spawnerPositions := by
  intro ps
  induction ps with
  | nil => exact fun st _ h => h
  | cons p ps ih =>
    intro st k h
    exact ih (initSpawnStep cfg st p) (initSpawnStep_reg_mono cfg st p h)

lemma createInitialSpawners_completedTargets (cfg : Config) (st : TState) (now : ℤ) :
    (createInitialSpawners cfg st now).completedTargets = st.completedTargets := by
  unfold createInitialSpawners
  cases h : cfg.initialSpawnPoints.head? with
  | none =>
    simp only [h]
    exact (initFold_fields cfg cfg.initialSpawnPoints st).2.1
  | some p =>
    simp only [h]
    split <;> exact (initFold_fields cfg cfg.initialSpawnPoints st).2.1

lemma createInitialSpawners_reg_mono (cfg : Config) (st : TState) (now : ℤ)
    {k : ℤ × ℤ × ℤ} (h : k ∈ st.spawnerPositions) :
    k ∈ (createInitialSpawners cfg st now).spawnerPositions := by
  unfold createInitialSpawners
  cases hh : cfg.initialSpawnPoints.head? with
  | none =>
    simp only [hh]
    exact initFold_reg_mono cfg cfg.initialSpawnPoints st h
  | some p =>
    simp only [hh]
    split <;> exact initFold_reg_mono cfg cfg.initialSpawnPoints st h

lemma createSpawnerBlock_completedTargets (cfg : Config) (st : TState) :
    (createSpawnerBlock cfg st).completedTargets = st.completedTargets := by
  unfold createSpawnerBlock
  rcases st.currentTarget with _ | t <;> rfl

lemma createSpawnerBlock_reg_mono (cfg : Config) (st : TState)
    {k : ℤ × ℤ × ℤ} (h : k ∈ st.spawnerPositions) :
    k ∈ (createSpawnerBlock cfg st).spawnerPositions := by
  unfold createSpawnerBlock
  rcases st.currentTarget with _ | t
  · exact h
  · exact mem_addKey_of_mem _ h

lemma selectNewTarget_completedTargets (cfg : Config) (st : TState) (now : ℤ)
    (o : RandOracle) :
    (selectNewTarget cfg st now o).completedTargets = st.completedTargets := by
  unfold selectNewTarget
  split
  · rcases findValidSpawnerPosition cfg st.lattice st.spawnerPositions o with _ | p
    · rfl
    · exact createSpawnerBlock_completedTargets cfg _
  · exact createInitialSpawners_completedTargets cfg st now

lemma selectNewTarget_reg_mono (cfg : Config) (st : TState) (now : ℤ)
    (o : RandOracle) {k : ℤ × ℤ × ℤ} (h : k ∈ st.spawnerPositions) :
    k ∈ (selectNewTarget cfg st now o).spawnerPositions := by
  unfold selectNewTarget
  split
  · rcases findValidSpawnerPosition cfg st.lattice st.spawnerPositions o with _ | p
    · exact h
    · exact createSpawnerBlock_reg_mono cfg _ h
  · exact createInitialSpawners_reg_mono cfg st now h

lemma colDsq_nonneg (t : Target) (c : ℤ × ℤ) : (0 : ℤ) ≤ colDsq t c := by
  unfold colDsq
  have h1 := mul_self_nonneg (c.1 - t.x)
  have h2 := mul_self_nonneg (c.2 - t.z)
  linarith

lemma halfSize_eq_floor (n : ℤ) : halfSize n = ⌊(n : ℚ) / 2⌋ := by
  unfold halfSize
  rw [Int.fdiv_eq_ediv _ (by norm_num)]
  rw [show ((2 : ℚ)) = ((2 : ℕ) : ℚ) from by norm_num,
    Rat.floor_intCast_div_natCast]
  rfl

/-! ## Claim theorems -/

/-- Claim C8: `withinBounds(x, z)` returns true if and only if
`centerX - half ≤ x ≤ centerX + half - 1` and `centerZ - half ≤ z ≤
centerZ + half - 1`, where `half = floor(size / 2)`; as embedded it is a
pure function of its arguments. -/
theorem isWithinBounds_iff (cfg : Config) (x z : ℤ) :
    halfSize cfg.size = ⌊(cfg.size : ℚ) / 2⌋ ∧
      (isWithinBounds cfg x z = true ↔
        (cfg.centerX - halfSize cfg.size ≤ x ∧ x ≤ cfg.centerX + halfSize cfg.size - 1 ∧
          cfg.centerZ - halfSize cfg.size ≤ z ∧ z ≤ cfg.centerZ + halfSize cfg.size - 1)) := by
  refine ⟨halfSize_eq_floor cfg.size, ?_⟩
  unfold isWithinBounds
  simp only [Bool.and_eq_true, decide_eq_true_eq]
  tauto

/-- Claim C7, counterexample: at size 1 (an odd positive size) and center
`(0, 0)` the accepted window is empty — 0 columns, not `size × size = 1`;
even the center column itself is rejected. -/
theorem boundsWindow_odd_size_cex :
    (boundsWindow 0 0 1).card = 0 ∧
      isWithinBounds
        { centerX := 0, centerZ := 0, size := 1, targetHeight := 5, intervalMs := 1000,
          terraformSize := 8, blockTypeId := 2, elevationSpeed := 1/2, spawnerBlockId := 19,
          initialSpawnPoints := [], spawnerSpreadRadius := 10 } 0 0 = false ∧
      (0 : ℕ) ≠ 1 * 1 := by
  refine ⟨by decide, by decide, by decide⟩

/-- Claim C7 as amended: the window accepted by `withinBounds` has exactly
`(2·floor(size/2))²` columns — which equals `size × size` exactly when
`size` is even — and replacing the center by `(centerX+dx, centerZ+dz)`
translates the accepted set by exactly `(dx, dz)`. -/
theorem boundsWindow_spec (cfg : Config) (dx dz x z : ℤ) :
    ((x, z) ∈ boundsWindow cfg.centerX cfg.centerZ cfg.size ↔
        isWithinBounds cfg x z = true) ∧
      (boundsWindow cfg.centerX cfg.centerZ cfg.size).card
        = (2 * halfSize cfg.size).toNat * (2 * halfSize cfg.size).toNat ∧
      (cfg.size % 2 = 0 → 0 ≤ cfg.size →
        (boundsWindow cfg.centerX cfg.centerZ cfg.size).card
          = (cfg.size * cfg.size).toNat) ∧
      ((x, z) ∈ boundsWindow (cfg.centerX + dx) (cfg.centerZ + dz) cfg.size ↔
        (x - dx, z - dz) ∈ boundsWindow cfg.centerX cfg.centerZ cfg.size) := by
  have hfd : halfSize cfg.size = cfg.size / 2 := by
    unfold halfSize
    exact Int.fdiv_eq_ediv _ (by norm_num)
  refine ⟨mem_boundsWindow cfg x z, ?_, ?_, ?_⟩
  · unfold boundsWindow
    rw [Finset.card_product, Int.card_Icc, Int.card_Icc]
    have h1 : cfg.centerX + halfSize cfg.size - 1 + 1 - (cfg.centerX - halfSize cfg.size)
        = 2 * halfSize cfg.size := by omega
    have h2 : cfg.centerZ + halfSize cfg.size - 1 + 1 - (cfg.centerZ - halfSize cfg.size)
        = 2 * halfSize cfg.size := by omega
    rw [h1, h2]
  · intro hev hpos
    unfold boundsWindow
    rw [Finset.card_product, Int.card_Icc, Int.card_Icc]
    rw [hfd]
    have h1 : cfg.centerX + cfg.size / 2 - 1 + 1 - (cfg.centerX - cfg.size / 2)
        = cfg.size := by omega
    have h2 : cfg.centerZ + cfg.size / 2 - 1 + 1 - (cfg.centerZ - cfg.size / 2)
        = cfg.size := by omega
    rw [h1, h2]
    have hcast : ((cfg.size.toNat * cfg.size.toNat : ℕ) : ℤ)
        = (((cfg.size * cfg.size).toNat : ℕ) : ℤ) := by
      rw [Nat.cast_mul, Int.toNat_of_nonneg hpos,
        Int.toNat_of_nonneg (mul_nonneg hpos hpos)]
    exact_mod_cast hcast
  · unfold boundsWindow
    simp only [Finset.mem_product, Finset.mem_Icc]
    omega

/-- Witness for the amended C7 at a concrete even-size configuration. -/
theorem boundsWindow_spec_witness :
    ((40 : ℤ) % 2 = 0 ∧ (0 : ℤ) ≤ 40) ∧
      (boundsWindow 0 0 40).card = ((40 : ℤ) * 40).toNat := by
  refine ⟨⟨by decide, by decide⟩, ?_⟩
  exact (boundsWindow_spec
    { centerX := 0, centerZ := 0, size := 40, targetHeight := 5, intervalMs := 1000,
      terraformSize := 8, blockTypeId := 2, elevationSpeed := 1/2, spawnerBlockId := 19,
      initialSpawnPoints := [], spawnerSpreadRadius := 10 } 0 0 0 0).2.2.1
    (by decide) (by decide)

/-- Claim C1: one step computes `currentWaveRadius = stepsElapsed *
elevationSpeed` with `stepsElapsed = floor(elapsed / interval)`; a column
whose Euclidean distance to the target exceeds the wave radius is skipped
with the step marked incomplete and no height computed; otherwise the
column's target height is `floor(target.y * max(0, 1 - (d/half)²))`, which
under `half ≥ 1` equals `floor(target.y)` at distance 0 and is below 1 at
every distance ≥ half, such columns being left untouched (excluded from
placement, completion unaffected). -/
theorem growthWave_column_spec (cfg : Config) (t : Target) (now : ℤ)
    (hh : 1 ≤ halfT cfg) :
    (waveRadius cfg t now
        = (⌊((now - t.startTime : ℤ) : ℚ) / (cfg.intervalMs : ℚ)⌋ : ℚ)
            * cfg.elevationSpeed) ∧
    (∀ c : ℤ × ℤ,
        beyondWave (colDsq t c) (stepsElapsed cfg t now) cfg.elevationSpeed = true ↔
          ((waveRadius cfg t now : ℚ) : ℝ) < Real.sqrt ((colDsq t c : ℤ) : ℝ)) ∧
    (∀ (st : GrowState) (c : ℤ × ℤ), isWithinBounds cfg c.1 c.2 = true →
        beyondWave (colDsq t c) (stepsElapsed cfg t now) cfg.elevationSpeed = true →
        stepColumn cfg t (stepsElapsed cfg t now) st c = { st with complete := false }) ∧
    (∀ c : ℤ × ℤ,
        targetHeightForPosition t.y (colDsq t c) (halfT cfg)
          = ⌊(t.y : ℚ) * max 0 (1 - ((colDsq t c : ℤ) : ℚ)
              / (((halfT cfg : ℤ) : ℚ) * ((halfT cfg : ℤ) : ℚ)))⌋) ∧
    (targetHeightForPosition t.y 0 (halfT cfg) = t.y) ∧
    (∀ c : ℤ × ℤ,
        ((halfT cfg : ℤ) : ℝ) ≤ Real.sqrt ((colDsq t c : ℤ) : ℝ) →
        targetHeightForPosition t.y (colDsq t c) (halfT cfg) < 1) ∧
    (∀ (st : GrowState) (c : ℤ × ℤ), isWithinBounds cfg c.1 c.2 = true →
        beyondWave (colDsq t c) (stepsElapsed cfg t now) cfg.elevationSpeed = false →
        targetHeightForPosition t.y (colDsq t c) (halfT cfg) < 1 →
        stepColumn cfg t (stepsElapsed cfg t now) st c = st) ∧
    (∀ (st : GrowState) (c : ℤ × ℤ), isWithinBounds cfg c.1 c.2 = true →
        beyondWave (colDsq t c) (stepsElapsed cfg t now) cfg.elevationSpeed = false →
        1 ≤ targetHeightForPosition t.y (colDsq t c) (halfT cfg) →
        getCurrentHeight cfg st.lattice c.1 c.2
          < targetHeightForPosition t.y (colDsq t c) (halfT cfg) →
        stepColumn cfg t (stepsElapsed cfg t now) st c =
          { lattice := setBlock st.lattice c.1
              (min (getCurrentHeight cfg st.lattice c.1 c.2 + 1)
                (targetHeightForPosition t.y (colDsq t c) (halfT cfg)))
              c.2 cfg.blockTypeId
            modified := st.modified + 1
            complete := false }) := by
  have hmm : (0 : ℤ) < halfT cfg * halfT cfg := by nlinarith [hh]
  refine ⟨?_, ?_, ?_, fun c => targetHeightForPosition_eq _ _ _, ?_, ?_, ?_, ?_⟩
  · unfold waveRadius
    rw [stepsElapsed_eq]
  · intro c
    have hcast : ((waveRadius cfg t now : ℚ) : ℝ)
        = ((stepsElapsed cfg t now : ℤ) : ℝ) * ((cfg.elevationSpeed : ℚ) : ℝ) := by
      unfold waveRadius
      push_cast
      ring
    rw [hcast]
    exact beyondWave_iff _ _ _
  · intro st c hb hg
    unfold stepColumn
    simp [hb, hg]
  · unfold targetHeightForPosition
    rw [if_neg (by omega), if_neg (by omega)]
    rw [show halfT cfg * halfT cfg - 0 = halfT cfg * halfT cfg from by ring]
    exact Int.mul_fdiv_cancel _ (by omega)
  · intro c hle
    have hd0 : (0 : ℤ) ≤ colDsq t c := colDsq_nonneg t c
    have hhq : (0 : ℝ) ≤ ((halfT cfg : ℤ) : ℝ) := by
      have : (0 : ℤ) ≤ halfT cfg := by omega
      exact_mod_cast this
    rw [Real.le_sqrt hhq (by exact_mod_cast hd0)] at hle
    have hsq : (halfT cfg) * (halfT cfg) ≤ colDsq t c := by
      have : ((halfT cfg : ℤ) : ℝ) * ((halfT cfg : ℤ) : ℝ) ≤ ((colDsq t c : ℤ) : ℝ) := by
        nlinarith [hle]
      exact_mod_cast this
    unfold targetHeightForPosition
    rw [if_neg (by omega), if_pos hsq]
    norm_num
  · intro st c hb hg hlt
    unfold stepColumn
    simp [hb, hg, hlt]
  · intro st c hb hg hge hcur
    unfold stepColumn
    have hnl : ¬ targetHeightForPosition t.y (colDsq t c) (halfT cfg) < 1 := by omega
    simp [hb, hg, hnl, hcur]

lemma colWrite_eq_some {cfg : Config} {t : Target} {r : ℤ} {lat : Lattice}
    {c : ℤ × ℤ} {w : ℤ} (h : colWrite cfg t r lat c = some w) :
    isWithinBounds cfg c.1 c.2 = true ∧
      beyondWave (colDsq t c) r cfg.elevationSpeed = false ∧
      1 ≤ targetHeightForPosition t.y (colDsq t c) (halfT cfg) ∧
      getCurrentHeight cfg lat c.1 c.2
        < targetHeightForPosition t.y (colDsq t c) (halfT cfg) ∧
      w = min (getCurrentHeight cfg lat c.1 c.2 + 1)
        (targetHeightForPosition t.y (colDsq t c) (halfT cfg)) := by
  unfold colWrite at h
  by_cases hb : isWithinBounds cfg c.1 c.2 = true
  · rw [if_pos hb] at h
    by_cases hg : beyondWave (colDsq t c) r cfg.elevationSpeed = true
    · rw [if_pos hg] at h
      exact absurd h (by simp)
    · have hg' : beyondWave (colDsq t c) r cfg.elevationSpeed = false := by simpa using hg
      rw [if_neg hg] at h
      by_cases hh : targetHeightForPosition t.y (colDsq t c) (halfT cfg) < 1
      · rw [if_pos hh] at h
        exact absurd h (by simp)
      · rw [if_neg hh] at h
        by_cases hc : getCurrentHeight cfg lat c.1 c.2
            < targetHeightForPosition t.y (colDsq t c) (halfT cfg)
        · rw [if_pos hc] at h
          refine ⟨hb, hg', by omega, hc, ?_⟩
          injection h with h
          exact h.symm
        · rw [if_neg hc] at h
          exact absurd h (by simp)
  · rw [if_neg hb] at h
    exact absurd h (by simp)

/-- Claim C2: completion of a terraform step is declared exactly when every
in-bounds column of the window is inside the wave radius and has either
reached its parabolic height already or is excluded by the zero-height
floor; and on completion the target is appended to the history and a new
selection runs within the same step. -/
theorem terraformStep_completion (cfg : Config) (st : TState) (now : ℤ)
    (o1 o2 : RandOracle) (t : Target)
    (ht : st.currentTarget = some t) (hact : t.isActive = true)
    (hsp : t.spawnerPosition = none ∨
      ∃ pos, t.spawnerPosition = some pos ∧
        isSpawnerBlockPresent cfg st.lattice pos = true) :
    ((runGrow cfg st.lattice t now).complete = true ↔
      ∀ c ∈ windowCols t (halfT cfg), isWithinBounds cfg c.1 c.2 = true →
        beyondWave (colDsq t c) (stepsElapsed cfg t now) cfg.elevationSpeed = false ∧
          (targetHeightForPosition t.y (colDsq t c) (halfT cfg) < 1 ∨
            ¬ getCurrentHeight cfg st.lattice c.1 c.2
                < targetHeightForPosition t.y (colDsq t c) (halfT cfg))) ∧
    ((runGrow cfg st.lattice t now).complete = true →
      terraformStep cfg st now o1 o2
        = selectNewTarget cfg
            { st with
              lattice := (runGrow cfg st.lattice t now).lattice
              completedTargets := st.completedTargets ++ [t] } now o1) := by
  constructor
  · rw [runGrow_complete, List.all_eq_true]
    constructor
    · intro h c hc hb
      exact (colOK_eq_true_iff cfg t (stepsElapsed cfg t now) st.lattice c).mp (h c hc) hb
    · intro h c hc
      exact (colOK_eq_true_iff cfg t (stepsElapsed cfg t now) st.lattice c).mpr
        (fun hb => h c hc hb)
  · intro hcomp
    unfold terraformStep
    rw [ht]
    simp only [hact]
    rcases hsp with hnone | ⟨pos, hpos, hpres⟩
    · rw [hnone]
      unfold runGrowState
      simp only [hcomp, if_true]
      rw [ht]
    · rw [hpos]
      simp only [hpres, if_true]
      unfold runGrowState
      simp only [hcomp, if_true]
      rw [ht]

/-- Claim C3: in the column loop of one terraform step, every column rises
by at most one level; a modified column was strictly below its computed
parabolic height before and stays at or below it after; a column already
at or above its computed height is not touched. -/
theorem runGrow_rise_cap (cfg : Config) (lat : Lattice) (t : Target) (now : ℤ)
    (x z : ℤ) :
    (getCurrentHeight cfg (runGrow cfg lat t now).lattice x z
        ≤ getCurrentHeight cfg lat x z + 1) ∧
    ((∃ y, (runGrow cfg lat t now).lattice.getId (x, y, z) ≠ lat.getId (x, y, z)) →
      getCurrentHeight cfg lat x z
          < targetHeightForPosition t.y (colDsq t (x, z)) (halfT cfg) ∧
        getCurrentHeight cfg (runGrow cfg lat t now).lattice x z
          ≤ targetHeightForPosition t.y (colDsq t (x, z)) (halfT cfg)) ∧
    (targetHeightForPosition t.y (colDsq t (x, z)) (halfT cfg)
        ≤ getCurrentHeight cfg lat x z →
      ∀ y, (runGrow cfg lat t now).lattice.getId (x, y, z) = lat.getId (x, y, z)) := by
  obtain ⟨hcm, hrf, hwf, hout, hin⟩ :=
    foldGrow_spec cfg t (stepsElapsed cfg t now) (windowCols t (halfT cfg))
      (windowCols_nodup t (halfT cfg)) ⟨lat, 0, true⟩
  by_cases hmem : (x, z) ∈ windowCols t (halfT cfg)
  · have hcol : ∀ y, (runGrow cfg lat t now).lattice.getId (x, y, z)
        = (stepColumn cfg t (stepsElapsed cfg t now) ⟨lat, 0, true⟩ (x, z)).lattice.getId
            (x, y, z) := fun y => hin (x, z) hmem y
    rw [stepColumn_eq] at hcol
    rcases hcw : colWrite cfg t (stepsElapsed cfg t now) lat (x, z) with _ | w
    · rw [hcw] at hcol
      have hhas : ∀ y, hasBlockAt (runGrow cfg lat t now).lattice x y z
          = hasBlockAt lat x y z := fun y =>
        hasBlockAt_congr x y z hrf (hcol y)
      have hht : getCurrentHeight cfg (runGrow cfg lat t now).lattice x z
          = getCurrentHeight cfg lat x z := getCurrentHeight_congr cfg x z hhas
      refine ⟨by omega, ?_, fun _ y => hcol y⟩
      rintro ⟨y, hy⟩
      exact absurd (hcol y) hy
    · rw [hcw] at hcol
      obtain ⟨hb, hg, hh1, hcur, hwv⟩ := colWrite_eq_some hcw
      have hhas : ∀ y, hasBlockAt (runGrow cfg lat t now).lattice x y z
          = hasBlockAt (setBlock lat x w z cfg.blockTypeId) x y z := fun y =>
        hasBlockAt_congr x y z (hrf.trans (setBlock_readFails lat x w z cfg.blockTypeId).symm)
          (hcol y)
      have hht : getCurrentHeight cfg (runGrow cfg lat t now).lattice x z
          = getCurrentHeight cfg (setBlock lat x w z cfg.blockTypeId) x z :=
        getCurrentHeight_congr cfg x z hhas
      have hcur' : getCurrentHeight cfg lat x z
          < targetHeightForPosition t.y (colDsq t (x, z)) (halfT cfg) := hcur
      have hwv' : w = min (getCurrentHeight cfg lat x z + 1)
          (targetHeightForPosition t.y (colDsq t (x, z)) (halfT cfg)) := hwv
      have hle := getCurrentHeight_setBlock_le cfg lat x z w cfg.blockTypeId
      have hw1 : w = getCurrentHeight cfg lat x z + 1 := by
        rw [hwv']
        exact min_eq_left (by omega)
      have hwh : w ≤ targetHeightForPosition t.y (colDsq t (x, z)) (halfT cfg) := by
        rw [hwv']
        exact min_le_right _ _
      have hmax : max (getCurrentHeight cfg lat x z) w = w :=
        max_eq_right (by omega)
      rw [hmax] at hle
      refine ⟨by omega, fun _ => ⟨hcur', by omega⟩, fun hctr => ?_⟩
      omega
  · have hcol : ∀ y, (runGrow cfg lat t now).lattice.getId (x, y, z)
        = lat.getId (x, y, z) := fun y => hout x z hmem y
    have hhas : ∀ y, hasBlockAt (runGrow cfg lat t now).lattice x y z
        = hasBlockAt lat x y z := fun y => hasBlockAt_congr x y z hrf (hcol y)
    have hht : getCurrentHeight cfg (runGrow cfg lat t now).lattice x z
        = getCurrentHeight cfg lat x z := getCurrentHeight_congr cfg x z hhas
    refine ⟨by omega, ?_, fun _ y => hcol y⟩
    rintro ⟨y, hy⟩
    exact absurd (hcol y) hy

lemma dsq2_nonneg (a b : ℤ) : (0 : ℤ) ≤ a * a + b * b := by
  have h1 := mul_self_nonneg a
  have h2 := mul_self_nonneg b
  linarith

lemma attemptCandidate_some {cfg : Config} {lat : Lattice} {reg : List (ℤ × ℤ × ℤ)}
    {o : RandOracle} {i : ℕ} {p : ℤ × ℤ}
    (h : attemptCandidate cfg lat reg o i = some p) :
    isValidSpawnerPosition cfg lat reg p.1 p.2 = true := by
  unfold attemptCandidate at h
  rcases hg : (getActiveSpawnerPositions cfg lat reg).get? (o i).1 with _ | s
  · rw [hg] at h
    exact absurd h (by simp)
  · rw [hg] at h
    dsimp only at h
    by_cases hv : isValidSpawnerPosition cfg lat reg (s.1 + (o i).2.1)
        (s.2.2 + (o i).2.2) = true
    · rw [if_pos hv] at h
      injection h with h
      rw [← h]
      exact hv
    · rw [if_neg hv] at h
      exact absurd h (by simp)

lemma isValidSpawnerPosition_sound {cfg : Config} {lat : Lattice}
    {reg : List (ℤ × ℤ × ℤ)} {x z : ℤ}
    (h : isValidSpawnerPosition cfg lat reg x z = true) :
    isWithinBounds cfg x z = true ∧
      (∀ s ∈ getActiveSpawnerPositions cfg lat reg,
        (5 : ℝ) ≤ Real.sqrt
          (((x - s.1) * (x - s.1) + (z - s.2.2) * (z - s.2.2) : ℤ) : ℝ)) ∧
      (∃ s ∈ getActiveSpawnerPositions cfg lat reg,
        Real.sqrt (((x - s.1) * (x - s.1) + (z - s.2.2) * (z - s.2.2) : ℤ) : ℝ)
          ≤ (cfg.spawnerSpreadRadius : ℝ)) := by
  unfold isValidSpawnerPosition at h
  by_cases hb : isWithinBounds cfg x z = true
  · rw [if_pos hb] at h
    by_cases hc : (getActiveSpawnerPositions cfg lat reg).any
        (fun s => sqrtLtB ((x - s.1) * (x - s.1) + (z - s.2.2) * (z - s.2.2)) 5) = true
    · rw [if_pos hc] at h
      exact absurd h (by simp)
    · rw [if_neg hc] at h
      refine ⟨hb, ?_, ?_⟩
      · intro s hs
        have hfalse : sqrtLtB ((x - s.1) * (x - s.1) + (z - s.2.2) * (z - s.2.2)) 5
            = false := by
          rcases Bool.eq_false_or_eq_true
            (sqrtLtB ((x - s.1) * (x - s.1) + (z - s.2.2) * (z - s.2.2)) 5) with ht | hf
          · exact absurd (List.any_eq_true.mpr ⟨s, hs, ht⟩) hc
          · exact hf
        have hnot : ¬ Real.sqrt
            (((x - s.1) * (x - s.1) + (z - s.2.2) * (z - s.2.2) : ℤ) : ℝ)
              < ((5 : ℚ) : ℝ) := by
          rw [← sqrtLtB_iff (r := 5) (dsq2_nonneg _ _)]
          simp [hfalse]
        push_neg at hnot
        calc (5 : ℝ) = ((5 : ℚ) : ℝ) := by norm_num
          _ ≤ _ := hnot
      · rcases List.any_eq_true.mp h with ⟨s, hs, hle⟩
        exact ⟨s, hs, (sqrtLeB_iff _ _).mp hle⟩
  · rw [if_neg hb] at h
    exact absurd h (by simp)

/-- Claim C4: every site the randomized spreading search returns is
in-bounds, at Euclidean distance ≥ 5 from every live marker and within the
spread radius of at least one, and is produced by one of at most 50
attempts; when the search fails, selection leaves the whole state
unchanged — no new target or marker is created that tick. -/
theorem findValidSpawnerPosition_spec (cfg : Config) (st : TState) (now : ℤ)
    (o : RandOracle) (hinit : st.hasInitialSpawners = true) :
    (∀ p : ℤ × ℤ,
      findValidSpawnerPosition cfg st.lattice st.spawnerPositions o = some p →
        isValidSpawnerPosition cfg st.lattice st.spawnerPositions p.1 p.2 = true ∧
        isWithinBounds cfg p.1 p.2 = true ∧
        (∀ s ∈ getActiveSpawnerPositions cfg st.lattice st.spawnerPositions,
          (5 : ℝ) ≤ Real.sqrt
            (((p.1 - s.1) * (p.1 - s.1) + (p.2 - s.2.2) * (p.2 - s.2.2) : ℤ) : ℝ)) ∧
        (∃ s ∈ getActiveSpawnerPositions cfg st.lattice st.spawnerPositions,
          Real.sqrt (((p.1 - s.1) * (p.1 - s.1) + (p.2 - s.2.2) * (p.2 - s.2.2) : ℤ) : ℝ)
            ≤ (cfg.spawnerSpreadRadius : ℝ)) ∧
        (∃ i : ℕ, i < 50 ∧
          attemptCandidate cfg st.lattice st.spawnerPositions o i = some p)) ∧
    (findValidSpawnerPosition cfg st.lattice st.spawnerPositions o = none →
      selectNewTarget cfg st now o = st) := by
  constructor
  · intro p hp
    unfold findValidSpawnerPosition at hp
    by_cases he : (getActiveSpawnerPositions cfg st.lattice st.spawnerPositions).isEmpty
    · rw [if_pos he] at hp
      exact absurd hp (by simp)
    · rw [if_neg he] at hp
      obtain ⟨i, hi, hcand⟩ := List.exists_of_findSome?_eq_some hp
      have hvalid := attemptCandidate_some hcand
      obtain ⟨hb, hfar, hnear⟩ := isValidSpawnerPosition_sound hvalid
      exact ⟨hvalid, hb, hfar, hnear, i, List.mem_range.mp hi, hcand⟩
  · intro hnone
    unfold selectNewTarget
    simp only [hinit, if_true]
    rw [hnone]

/-! ## Concrete instances used by counterexamples and witnesses -/

/-- Configuration whose first configured initial spawn point is out of
bounds while the second is in bounds. -/
def cfgInit : Config :=
  { centerX := 0, centerZ := 0, size := 10, targetHeight := 5, intervalMs := 1000,
    terraformSize := 8, blockTypeId := 2, elevationSpeed := 1/2, spawnerBlockId := 19,
    initialSpawnPoints := [(100, 100), (0, 0)], spawnerSpreadRadius := 10 }

/-- An empty, failure-free grid. -/
def latEmpty : Lattice := { blocks := [], readFails := [], writeFails := [] }

/-- A fresh zone state (no target, nothing registered). -/
def stFresh : TState :=
  { lattice := latEmpty, currentTarget := none, completedTargets := [],
    spawnerPositions := [], hasInitialSpawners := false }

/-- Claim C5, counterexample: with initial points `[(100,100), (0,0)]`,
center `(0,0)`, size 10, the point `(100,100)` is out of bounds and
`(0,0)` is the first *valid* point; its marker is placed and registered at
`(0, 2, 0)`, yet after the pass no current target is bound at all — the
code only binds the marker of the first *configured* point. -/
theorem createInitialSpawners_first_valid_cex :
    isWithinBounds cfgInit 100 100 = false ∧
      isWithinBounds cfgInit 0 0 = true ∧
      (0, 2, 0) ∈ (createInitialSpawners cfgInit stFresh 0).spawnerPositions ∧
      (createInitialSpawners cfgInit stFresh 0).currentTarget = none := by
  refine ⟨by decide, by decide, by decide, by decide⟩

/-- Claim C5 as amended: each out-of-bounds initial point is skipped with
the state unchanged; each in-bounds point gets a marker block placed at
`(x, max(groundHeight+2, 2), z)` (ground probed from the grid at that
moment) and its key registered; the pass sets the initial-spawners flag;
and the first *configured* point's marker is bound as the current target
exactly when that first point is in bounds — otherwise no binding
happens. -/
theorem createInitialSpawners_spec (cfg : Config) (st : TState) (now : ℤ) :
    (∀ (st' : TState) (p : ℤ × ℤ), isWithinBounds cfg p.1 p.2 = false →
        initSpawnStep cfg st' p = st') ∧
    (∀ (st' : TState) (p : ℤ × ℤ), isWithinBounds cfg p.1 p.2 = true →
        initSpawnStep cfg st' p =
          { st' with
            lattice := setBlock st'.lattice p.1
              (max (getCurrentHeight cfg st'.lattice p.1 p.2 + 2) 2) p.2
              cfg.spawnerBlockId
            spawnerPositions := addKey st'.spawnerPositions
              (p.1, max (getCurrentHeight cfg st'.lattice p.1 p.2 + 2) 2, p.2) }) ∧
    ((createInitialSpawners cfg st now).hasInitialSpawners = true) ∧
    (∀ p : ℤ × ℤ, cfg.initialSpawnPoints.head? = some p →
      isWithinBounds cfg p.1 p.2 = true →
      (createInitialSpawners cfg st now).currentTarget = some
        { x := p.1
          y := cfg.targetHeight
          z := p.2
          startTime := now
          spawnerPosition :=
            findSpawnerPositionAt cfg
              (cfg.initialSpawnPoints.foldl (initSpawnStep cfg) st).lattice
              (cfg.initialSpawnPoints.foldl (initSpawnStep cfg) st).spawnerPositions
              p.1 p.2
          isActive := true }) ∧
    (∀ p : ℤ × ℤ, cfg.initialSpawnPoints.head? = some p →
      isWithinBounds cfg p.1 p.2 = false →
      (createInitialSpawners cfg st now).currentTarget = st.currentTarget) ∧
    (cfg.initialSpawnPoints.head? = none →
      (createInitialSpawners cfg st now).currentTarget = st.currentTarget) := by
  refine ⟨?_, ?_, ?_, ?_, ?_, ?_⟩
  · intro st' p hb
    unfold initSpawnStep
    rw [if_neg (by simp [hb])]
  · intro st' p hb
    unfold initSpawnStep
    rw [if_pos hb]
  · unfold createInitialSpawners
    cases h : cfg.initialSpawnPoints.head? with
    | none =>
      simp only [h]
    | some q =>
      simp only [h]
      split <;> rfl
  · intro p hp hb
    unfold createInitialSpawners
    rw [hp]
    dsimp only
    rw [if_pos hb]
  · intro p hp hb
    unfold createInitialSpawners
    rw [hp]
    dsimp only
    rw [if_neg (by simp [hb])]
    exact (initFold_fields cfg cfg.initialSpawnPoints st).1
  · intro hp
    unfold createInitialSpawners
    rw [hp]
    exact (initFold_fields cfg cfg.initialSpawnPoints st).1

/-- The state right before destruction-triggered re-selection: the current
target marked inactive (line 304 of the step) with its marker binding
cleared (inside `onSpawnerDestroyed`). -/
def markCurrentDestroyed (st : TState) (t : Target) : TState :=
  { st with
    currentTarget := some { t with
      isActive := false
      spawnerPosition := none } }

/-- The exact pipeline of a destruction step: mark the current target
inactive and unbound, select (inside `onSpawnerDestroyed`), drop the dead
key, select again. -/
lemma terraformStep_destruction_eq (cfg : Config) (st : TState) (now : ℤ)
    (o1 o2 : RandOracle) (t : Target) (pos : ℤ × ℤ × ℤ)
    (ht : st.currentTarget = some t) (hact : t.isActive = true)
    (hsp : t.spawnerPosition = some pos)
    (habs : isSpawnerBlockPresent cfg st.lattice pos = false) :
    terraformStep cfg st now o1 o2
      = selectNewTarget cfg
          { selectNewTarget cfg (markCurrentDestroyed st t) now o1 with
            spawnerPositions :=
              delKey (selectNewTarget cfg (markCurrentDestroyed st t) now o1).spawnerPositions pos }
          now o2 := by
  unfold terraformStep
  rw [ht]
  dsimp only
  rw [if_pos hact, hsp]
  dsimp only
  rw [if_neg (by simp [habs])]
  unfold onSpawnerDestroyed currentMatches
  dsimp only
  rw [if_pos (by simp)]
  unfold markCurrentDestroyed
  rfl

/-- Claim C6: when the current target's bound marker block is confirmed
absent from the grid, the step marks that target inactive, clears its
marker binding, re-runs selection within the same tick, removes exactly
that marker's key from the registry, and leaves every other registered key
and all historical targets untouched. -/
theorem terraformStep_destruction (cfg : Config) (st : TState) (now : ℤ)
    (o1 o2 : RandOracle) (t : Target) (pos : ℤ × ℤ × ℤ)
    (ht : st.currentTarget = some t) (hact : t.isActive = true)
    (hsp : t.spawnerPosition = some pos)
    (habs : isSpawnerBlockPresent cfg st.lattice pos = false) :
    (terraformStep cfg st now o1 o2
      = selectNewTarget cfg
          { selectNewTarget cfg (markCurrentDestroyed st t) now o1 with
            spawnerPositions :=
              delKey (selectNewTarget cfg (markCurrentDestroyed st t) now o1).spawnerPositions pos }
          now o2) ∧
    ((terraformStep cfg st now o1 o2).completedTargets = st.completedTargets) ∧
    (∀ k, k ∈ st.spawnerPositions → k ≠ pos →
      k ∈ (terraformStep cfg st now o1 o2).spawnerPositions) ∧
    pos ∉ delKey (selectNewTarget cfg (markCurrentDestroyed st t) now o1).spawnerPositions pos := by
  have hmain := terraformStep_destruction_eq cfg st now o1 o2 t pos ht hact hsp habs
  refine ⟨hmain, ?_, ?_, ?_⟩
  · rw [hmain]
    rw [selectNewTarget_completedTargets]
    exact selectNewTarget_completedTargets cfg (markCurrentDestroyed st t) now o1
  · intro k hk hkp
    rw [hmain]
    refine selectNewTarget_reg_mono cfg _ now o2 ?_
    refine (mem_delKey hkp).mpr ?_
    exact selectNewTarget_reg_mono cfg (markCurrentDestroyed st t) now o1 hk
  · exact not_mem_delKey_self _ pos

/-- Claim C9: a throwing grid read is treated as "no block" by
`hasBlockAt` and as "marker not live" by `isSpawnerBlockPresent`; absent a
read failure, a marker is live exactly when the grid stores the configured
spawner block type at its coordinate; a throwing write leaves the grid
unchanged; and a column iteration never aborts the loop — the remaining
columns are always processed. -/
theorem gridFailure_containment (cfg : Config) (lat : Lattice) (t : Target) (r : ℤ) :
    (∀ x y z : ℤ, (x, y, z) ∈ lat.readFails → hasBlockAt lat x y z = false) ∧
    (∀ pos : ℤ × ℤ × ℤ, pos ∈ lat.readFails →
      isSpawnerBlockPresent cfg lat pos = false) ∧
    (∀ pos : ℤ × ℤ × ℤ, pos ∉ lat.readFails →
      (isSpawnerBlockPresent cfg lat pos = true ↔
        lat.getId pos = some cfg.spawnerBlockId)) ∧
    (∀ x y z id : ℤ, (x, y, z) ∈ lat.writeFails → setBlock lat x y z id = lat) ∧
    (∀ (st : GrowState) (c : ℤ × ℤ) (cs : List (ℤ × ℤ)),
      (c :: cs).foldl (stepColumn cfg t r) st
        = cs.foldl (stepColumn cfg t r) (stepColumn cfg t r st c)) := by
  refine ⟨?_, ?_, ?_, ?_, ?_⟩
  · intro x y z h
    unfold hasBlockAt
    rw [if_pos h]
  · intro pos h
    unfold isSpawnerBlockPresent
    rw [if_pos h]
  · intro pos h
    unfold isSpawnerBlockPresent
    rw [if_neg h]
    simp
  · intro x y z id h
    exact setBlock_of_writeFail id h
  · intro st c cs
    rfl

/-- Claim C10 (implicit): when the current target's marker is found absent
and both spreading selections succeed, the step runs target selection
twice — once inside destruction handling (the destroyed spawner belongs to
the current target) and once directly afterwards — so two new markers are
placed and registered in that one tick; only the second is bound as the
current target, the first stays registered and bound to no target, and the
history is unchanged. -/
theorem terraformStep_double_selection (cfg : Config) (st : TState) (now : ℤ)
    (o1 o2 : RandOracle) (t : Target) (pos : ℤ × ℤ × ℤ) (p1 p2 : ℤ × ℤ)
    (ht : st.currentTarget = some t) (hact : t.isActive = true)
    (hsp : t.spawnerPosition = some pos)
    (habs : isSpawnerBlockPresent cfg st.lattice pos = false)
    (hinit : st.hasInitialSpawners = true)
    (hsel1 : findValidSpawnerPosition cfg st.lattice st.spawnerPositions o1 = some p1)
    (hsel2 : findValidSpawnerPosition cfg
        (setBlock st.lattice p1.1
          (max (getCurrentHeight cfg st.lattice p1.1 p1.2 + 2) 2) p1.2 cfg.spawnerBlockId)
        (delKey (addKey st.spawnerPositions
          (p1.1, max (getCurrentHeight cfg st.lattice p1.1 p1.2 + 2) 2, p1.2)) pos)
        o2 = some p2)
    (hne1 : (p1.1, max (getCurrentHeight cfg st.lattice p1.1 p1.2 + 2) 2, p1.2) ≠ pos) :
    ((terraformStep cfg st now o1 o2).currentTarget = some
      { x := p2.1
        y := cfg.targetHeight
        z := p2.2
        startTime := now
        spawnerPosition := some (p2.1,
          max (getCurrentHeight cfg
            (setBlock st.lattice p1.1
              (max (getCurrentHeight cfg st.lattice p1.1 p1.2 + 2) 2) p1.2
              cfg.spawnerBlockId) p2.1 p2.2 + 2) 2, p2.2)
        isActive := true }) ∧
    ((p1.1, max (getCurrentHeight cfg st.lattice p1.1 p1.2 + 2) 2, p1.2)
      ∈ (terraformStep cfg st now o1 o2).spawnerPositions) ∧
    ((p2.1,
        max (getCurrentHeight cfg
          (setBlock st.lattice p1.1
            (max (getCurrentHeight cfg st.lattice p1.1 p1.2 + 2) 2) p1.2
            cfg.spawnerBlockId) p2.1 p2.2 + 2) 2, p2.2)
      ∈ (terraformStep cfg st now o1 o2).spawnerPositions) ∧
    ((terraformStep cfg st now o1 o2).completedTargets = st.completedTargets) ∧
    ((p1.1, max (getCurrentHeight cfg st.lattice p1.1 p1.2 + 2) 2, p1.2)
        ≠ (p2.1,
            max (getCurrentHeight cfg
              (setBlock st.lattice p1.1
                (max (getCurrentHeight cfg st.lattice p1.1 p1.2 + 2) 2) p1.2
                cfg.spawnerBlockId) p2.1 p2.2 + 2) 2, p2.2) →
      ∀ tt : Target, (terraformStep cfg st now o1 o2).currentTarget = some tt →
        tt.spawnerPosition
          ≠ some (p1.1, max (getCurrentHeight cfg st.lattice p1.1 p1.2 + 2) 2, p1.2)) := by
  have hsel : selectNewTarget cfg (markCurrentDestroyed st t) now o1
      = { lattice := setBlock st.lattice p1.1
            (max (getCurrentHeight cfg st.lattice p1.1 p1.2 + 2) 2) p1.2 cfg.spawnerBlockId
          currentTarget := some
            { x := p1.1
              y := cfg.targetHeight
              z := p1.2
              startTime := now
              spawnerPosition := some
                (p1.1, max (getCurrentHeight cfg st.lattice p1.1 p1.2 + 2) 2, p1.2)
              isActive := true }
          completedTargets := st.completedTargets
          spawnerPositions := addKey st.spawnerPositions
            (p1.1, max (getCurrentHeight cfg st.lattice p1.1 p1.2 + 2) 2, p1.2)
          hasInitialSpawners := st.hasInitialSpawners } := by
    unfold selectNewTarget markCurrentDestroyed
    dsimp only
    rw [if_pos hinit, hsel1]
    unfold createSpawnerBlock
    rfl
  have hfin : terraformStep cfg st now o1 o2
      = { lattice := setBlock
            (setBlock st.lattice p1.1
              (max (getCurrentHeight cfg st.lattice p1.1 p1.2 + 2) 2) p1.2
              cfg.spawnerBlockId)
            p2.1
            (max (getCurrentHeight cfg
              (setBlock st.lattice p1.1
                (max (getCurrentHeight cfg st.lattice p1.1 p1.2 + 2) 2) p1.2
                cfg.spawnerBlockId) p2.1 p2.2 + 2) 2)
            p2.2 cfg.spawnerBlockId
          currentTarget := some
            { x := p2.1
              y := cfg.targetHeight
              z := p2.2
              startTime := now
              spawnerPosition := some (p2.1,
                max (getCurrentHeight cfg
                  (setBlock st.lattice p1.1
                    (max (getCurrentHeight cfg st.lattice p1.1 p1.2 + 2) 2) p1.2
                    cfg.spawnerBlockId) p2.1 p2.2 + 2) 2, p2.2)
              isActive := true }
          completedTargets := st.completedTargets
          spawnerPositions := addKey
            (delKey (addKey st.spawnerPositions
              (p1.1, max (getCurrentHeight cfg st.lattice p1.1 p1.2 + 2) 2, p1.2)) pos)
            (p2.1,
              max (getCurrentHeight cfg
                (setBlock st.lattice p1.1
                  (max (getCurrentHeight cfg st.lattice p1.1 p1.2 + 2) 2) p1.2
                  cfg.spawnerBlockId) p2.1 p2.2 + 2) 2, p2.2)
          hasInitialSpawners := st.hasInitialSpawners } := by
    rw [terraformStep_destruction_eq cfg st now o1 o2 t pos ht hact hsp habs, hsel]
    unfold selectNewTarget
    dsimp only
    rw [if_pos hinit, hsel2]
    unfold createSpawnerBlock
    rfl
  rw [hfin]
  refine ⟨rfl, ?_, ?_, rfl, ?_⟩
  · exact mem_addKey_of_mem _
      ((mem_delKey hne1).mpr (mem_addKey_self _ _))
  · exact mem_addKey_self _ _
  · intro hk12 tt htt hbind
    injection htt with htt
    rw [← htt] at hbind
    dsimp only at hbind
    injection hbind with hbind
    exact hk12 hbind.symm

/-! ## Witnesses -/

/-- An oracle that always proposes the first live spawner with offset 0. -/
def oZero : RandOracle := fun _ => (0, (0, 0))

/-- A target used by the growth-wave witness. -/
def tGrow : Target :=
  { x := 0, y := 5, z := 0, startTime := 0, spawnerPosition := none, isActive := true }

/-- Witness for C1 at a concrete configuration with half-width 4. -/
theorem growthWave_column_spec_witness :
    ((1 : ℤ) ≤ halfT cfgInit) ∧
    ((waveRadius cfgInit tGrow 0
        = (⌊((0 - tGrow.startTime : ℤ) : ℚ) / (cfgInit.intervalMs : ℚ)⌋ : ℚ)
            * cfgInit.elevationSpeed) ∧
    (∀ c : ℤ × ℤ,
        beyondWave (colDsq tGrow c) (stepsElapsed cfgInit tGrow 0) cfgInit.elevationSpeed = true ↔
          ((waveRadius cfgInit tGrow 0 : ℚ) : ℝ) < Real.sqrt ((colDsq tGrow c : ℤ) : ℝ)) ∧
    (∀ (st : GrowState) (c : ℤ × ℤ), isWithinBounds cfgInit c.1 c.2 = true →
        beyondWave (colDsq tGrow c) (stepsElapsed cfgInit tGrow 0) cfgInit.elevationSpeed = true →
        stepColumn cfgInit tGrow (stepsElapsed cfgInit tGrow 0) st c
          = { st with complete := false }) ∧
    (∀ c : ℤ × ℤ,
        targetHeightForPosition tGrow.y (colDsq tGrow c) (halfT cfgInit)
          = ⌊(tGrow.y : ℚ) * max 0 (1 - ((colDsq tGrow c : ℤ) : ℚ)
              / (((halfT cfgInit : ℤ) : ℚ) * ((halfT cfgInit : ℤ) : ℚ)))⌋) ∧
    (targetHeightForPosition tGrow.y 0 (halfT cfgInit) = tGrow.y) ∧
    (∀ c : ℤ × ℤ,
        ((halfT cfgInit : ℤ) : ℝ) ≤ Real.sqrt ((colDsq tGrow c : ℤ) : ℝ) →
        targetHeightForPosition tGrow.y (colDsq tGrow c) (halfT cfgInit) < 1) ∧
    (∀ (st : GrowState) (c : ℤ × ℤ), isWithinBounds cfgInit c.1 c.2 = true →
        beyondWave (colDsq tGrow c) (stepsElapsed cfgInit tGrow 0) cfgInit.elevationSpeed = false →
        targetHeightForPosition tGrow.y (colDsq tGrow c) (halfT cfgInit) < 1 →
        stepColumn cfgInit tGrow (stepsElapsed cfgInit tGrow 0) st c = st) ∧
    (∀ (st : GrowState) (c : ℤ × ℤ), isWithinBounds cfgInit c.1 c.2 = true →
        beyondWave (colDsq tGrow c) (stepsElapsed cfgInit tGrow 0) cfgInit.elevationSpeed = false →
        1 ≤ targetHeightForPosition tGrow.y (colDsq tGrow c) (halfT cfgInit) →
        getCurrentHeight cfgInit st.lattice c.1 c.2
          < targetHeightForPosition tGrow.y (colDsq tGrow c) (halfT cfgInit) →
        stepColumn cfgInit tGrow (stepsElapsed cfgInit tGrow 0) st c =
          { lattice := setBlock st.lattice c.1
              (min (getCurrentHeight cfgInit st.lattice c.1 c.2 + 1)
                (targetHeightForPosition tGrow.y (colDsq tGrow c) (halfT cfgInit)))
              c.2 cfgInit.blockTypeId
            modified := st.modified + 1
            complete := false })) :=
  ⟨by decide, growthWave_column_spec cfgInit tGrow 0 (by decide)⟩

/-- A flat-target configuration whose step completes immediately (target
elevation 0, wide wave radius, tiny window). -/
def cfgFlat : Config :=
  { centerX := 0, centerZ := 0, size := 40, targetHeight := 5, intervalMs := 1000,
    terraformSize := 2, blockTypeId := 2, elevationSpeed := 1, spawnerBlockId := 19,
    initialSpawnPoints := [(0, 0)], spawnerSpreadRadius := 10 }

def tFlat : Target :=
  { x := 0, y := 0, z := 0, startTime := 0, spawnerPosition := none, isActive := true }

def stFlat : TState :=
  { lattice := latEmpty, currentTarget := some tFlat, completedTargets := [],
    spawnerPositions := [], hasInitialSpawners := true }

/-- Witness for C2: at `cfgFlat` the step really completes (the completion
premise is satisfiable) and the characterization holds. -/
theorem terraformStep_completion_witness :
    (stFlat.currentTarget = some tFlat ∧ tFlat.isActive = true ∧
        tFlat.spawnerPosition = none ∧
        (runGrow cfgFlat stFlat.lattice tFlat 10000).complete = true) ∧
    (((runGrow cfgFlat stFlat.lattice tFlat 10000).complete = true ↔
      ∀ c ∈ windowCols tFlat (halfT cfgFlat), isWithinBounds cfgFlat c.1 c.2 = true →
        beyondWave (colDsq tFlat c) (stepsElapsed cfgFlat tFlat 10000) cfgFlat.elevationSpeed = false ∧
          (targetHeightForPosition tFlat.y (colDsq tFlat c) (halfT cfgFlat) < 1 ∨
            ¬ getCurrentHeight cfgFlat stFlat.lattice c.1 c.2
                < targetHeightForPosition tFlat.y (colDsq tFlat c) (halfT cfgFlat))) ∧
    ((runGrow cfgFlat stFlat.lattice tFlat 10000).complete = true →
      terraformStep cfgFlat stFlat 10000 oZero oZero
        = selectNewTarget cfgFlat
            { stFlat with
              lattice := (runGrow cfgFlat stFlat.lattice tFlat 10000).lattice
              completedTargets := stFlat.completedTargets ++ [tFlat] } 10000 oZero)) :=
  ⟨⟨rfl, rfl, rfl, by decide⟩,
    terraformStep_completion cfgFlat stFlat 10000 oZero oZero tFlat rfl rfl (Or.inl rfl)⟩

/-- A hill-growing configuration whose first step raises the center
column. -/
def cfgHill : Config :=
  { centerX := 0, centerZ := 0, size := 40, targetHeight := 3, intervalMs := 1000,
    terraformSize := 2, blockTypeId := 2, elevationSpeed := 1, spawnerBlockId := 19,
    initialSpawnPoints := [(0, 0)], spawnerSpreadRadius := 10 }

def tHill : Target :=
  { x := 0, y := 3, z := 0, startTime := 0, spawnerPosition := none, isActive := true }

/-- Witness for C3: the first step of `cfgHill` modifies the center column
(the "modified" premise is satisfiable) and the rise cap holds there. -/
theorem runGrow_rise_cap_witness :
    ((runGrow cfgHill latEmpty tHill 0).lattice.getId (0, 0, 0)
        ≠ latEmpty.getId (0, 0, 0)) ∧
    ((getCurrentHeight cfgHill (runGrow cfgHill latEmpty tHill 0).lattice 0 0
        ≤ getCurrentHeight cfgHill latEmpty 0 0 + 1) ∧
    ((∃ y, (runGrow cfgHill latEmpty tHill 0).lattice.getId (0, y, 0)
        ≠ latEmpty.getId (0, y, 0)) →
      getCurrentHeight cfgHill latEmpty 0 0
          < targetHeightForPosition tHill.y (colDsq tHill (0, 0)) (halfT cfgHill) ∧
        getCurrentHeight cfgHill (runGrow cfgHill latEmpty tHill 0).lattice 0 0
          ≤ targetHeightForPosition tHill.y (colDsq tHill (0, 0)) (halfT cfgHill)) ∧
    (targetHeightForPosition tHill.y (colDsq tHill (0, 0)) (halfT cfgHill)
        ≤ getCurrentHeight cfgHill latEmpty 0 0 →
      ∀ y, (runGrow cfgHill latEmpty tHill 0).lattice.getId (0, y, 0)
        = latEmpty.getId (0, y, 0))) :=
  ⟨by decide, runGrow_rise_cap cfgHill latEmpty tHill 0 0 0⟩

/-- A grid holding one live marker at `(0, 3, 0)` with its key registered. -/
def latMark : Lattice := { blocks := [((0, 3, 0), 19)], readFails := [], writeFails := [] }

def stMark : TState :=
  { lattice := latMark, currentTarget := none, completedTargets := [],
    spawnerPositions := [(0, 3, 0)], hasInitialSpawners := true }

/-- Oracle proposing offset `(3, 4)` from the first live spawner — at
Euclidean distance exactly 5 from it. -/
def oNear : RandOracle := fun _ => (0, (3, 4))

/-- Witness for C4: the search succeeds at `(3, 4)` (its premise is
satisfiable) and soundness holds. -/
theorem findValidSpawnerPosition_spec_witness :
    (stMark.hasInitialSpawners = true ∧
      findValidSpawnerPosition cfgInit stMark.lattice stMark.spawnerPositions oNear
        = some (3, 4)) ∧
    ((∀ p : ℤ × ℤ,
      findValidSpawnerPosition cfgInit stMark.lattice stMark.spawnerPositions oNear
          = some p →
        isValidSpawnerPosition cfgInit stMark.lattice stMark.spawnerPositions p.1 p.2
            = true ∧
        isWithinBounds cfgInit p.1 p.2 = true ∧
        (∀ s ∈ getActiveSpawnerPositions cfgInit stMark.lattice stMark.spawnerPositions,
          (5 : ℝ) ≤ Real.sqrt
            (((p.1 - s.1) * (p.1 - s.1) + (p.2 - s.2.2) * (p.2 - s.2.2) : ℤ) : ℝ)) ∧
        (∃ s ∈ getActiveSpawnerPositions cfgInit stMark.lattice stMark.spawnerPositions,
          Real.sqrt (((p.1 - s.1) * (p.1 - s.1) + (p.2 - s.2.2) * (p.2 - s.2.2) : ℤ) : ℝ)
            ≤ (cfgInit.spawnerSpreadRadius : ℝ)) ∧
        (∃ i : ℕ, i < 50 ∧
          attemptCandidate cfgInit stMark.lattice stMark.spawnerPositions oNear i
            = some p)) ∧
    (findValidSpawnerPosition cfgInit stMark.lattice stMark.spawnerPositions oNear
        = none →
      selectNewTarget cfgInit stMark 0 oNear = stMark)) :=
  ⟨⟨rfl, by decide⟩, findValidSpawnerPosition_spec cfgInit stMark 0 oNear rfl⟩

/-- A configuration whose single initial point is in bounds. -/
def cfgGood : Config :=
  { centerX := 0, centerZ := 0, size := 10, targetHeight := 5, intervalMs := 1000,
    terraformSize := 8, blockTypeId := 2, elevationSpeed := mkRat 1 2, spawnerBlockId := 19,
    initialSpawnPoints := [(0, 0)], spawnerSpreadRadius := 10 }

/-- Witness for the amended C5: with the single in-bounds initial point
`(0, 0)` the binding premises are satisfiable and the pass behaves as
specified. -/
theorem createInitialSpawners_spec_witness :
    (cfgGood.initialSpawnPoints.head? = some (0, 0) ∧
        isWithinBounds cfgGood 0 0 = true) ∧
    ((∀ (st' : TState) (p : ℤ × ℤ), isWithinBounds cfgGood p.1 p.2 = false →
        initSpawnStep cfgGood st' p = st') ∧
    (∀ (st' : TState) (p : ℤ × ℤ), isWithinBounds cfgGood p.1 p.2 = true →
        initSpawnStep cfgGood st' p =
          { st' with
            lattice := setBlock st'.lattice p.1
              (max (getCurrentHeight cfgGood st'.lattice p.1 p.2 + 2) 2) p.2
              cfgGood.spawnerBlockId
            spawnerPositions := addKey st'.spawnerPositions
              (p.1, max (getCurrentHeight cfgGood st'.lattice p.1 p.2 + 2) 2, p.2) }) ∧
    ((createInitialSpawners cfgGood stFresh 0).hasInitialSpawners = true) ∧
    (∀ p : ℤ × ℤ, cfgGood.initialSpawnPoints.head? = some p →
      isWithinBounds cfgGood p.1 p.2 = true →
      (createInitialSpawners cfgGood stFresh 0).currentTarget = some
        { x := p.1
          y := cfgGood.targetHeight
          z := p.2
          startTime := 0
          spawnerPosition :=
            findSpawnerPositionAt cfgGood
              (cfgGood.initialSpawnPoints.foldl (initSpawnStep cfgGood) stFresh).lattice
              (cfgGood.initialSpawnPoints.foldl (initSpawnStep cfgGood) stFresh).spawnerPositions
              p.1 p.2
          isActive := true }) ∧
    (∀ p : ℤ × ℤ, cfgGood.initialSpawnPoints.head? = some p →
      isWithinBounds cfgGood p.1 p.2 = false →
      (createInitialSpawners cfgGood stFresh 0).currentTarget = stFresh.currentTarget) ∧
    (cfgGood.initialSpawnPoints.head? = none →
      (createInitialSpawners cfgGood stFresh 0).currentTarget = stFresh.currentTarget)) :=
  ⟨⟨by decide, by decide⟩, createInitialSpawners_spec cfgGood stFresh 0⟩

/-- A target whose bound marker `(3, 2, 3)` is absent from the grid. -/
def tDead : Target :=
  { x := 3, y := 5, z := 3, startTime := 0, spawnerPosition := some (3, 2, 3),
    isActive := true }

def stDead : TState :=
  { lattice := latEmpty, currentTarget := some tDead, completedTargets := [],
    spawnerPositions := [(3, 2, 3)], hasInitialSpawners := true }

/-- Witness for C6 at a concrete destroyed-marker state. -/
theorem terraformStep_destruction_witness :
    (stDead.currentTarget = some tDead ∧ tDead.isActive = true ∧
        tDead.spawnerPosition = some (3, 2, 3) ∧
        isSpawnerBlockPresent cfgInit stDead.lattice (3, 2, 3) = false) ∧
    ((terraformStep cfgInit stDead 0 oZero oZero
      = selectNewTarget cfgInit
          { selectNewTarget cfgInit (markCurrentDestroyed stDead tDead) 0 oZero with
            spawnerPositions :=
              delKey (selectNewTarget cfgInit (markCurrentDestroyed stDead tDead) 0
                oZero).spawnerPositions (3, 2, 3) }
          0 oZero) ∧
    ((terraformStep cfgInit stDead 0 oZero oZero).completedTargets
        = stDead.completedTargets) ∧
    (∀ k, k ∈ stDead.spawnerPositions → k ≠ (3, 2, 3) →
      k ∈ (terraformStep cfgInit stDead 0 oZero oZero).spawnerPositions) ∧
    (3, 2, 3) ∉ delKey (selectNewTarget cfgInit (markCurrentDestroyed stDead tDead) 0
        oZero).spawnerPositions (3, 2, 3)) :=
  ⟨⟨rfl, rfl, rfl, by decide⟩,
    terraformStep_destruction cfgInit stDead 0 oZero oZero tDead (3, 2, 3)
      rfl rfl rfl (by decide)⟩

/-- A grid that throws on reads at `(0,0,0)` and on writes at `(1,1,1)`. -/
def latFail : Lattice :=
  { blocks := [], readFails := [(0, 0, 0)], writeFails := [(1, 1, 1)] }

/-- Witness for C9: the failure sets are inhabited and containment holds. -/
theorem gridFailure_containment_witness :
    ((0, 0, 0) ∈ latFail.readFails ∧ (1, 1, 1) ∈ latFail.writeFails) ∧
    ((∀ x y z : ℤ, (x, y, z) ∈ latFail.readFails → hasBlockAt latFail x y z = false) ∧
    (∀ pos : ℤ × ℤ × ℤ, pos ∈ latFail.readFails →
      isSpawnerBlockPresent cfgInit latFail pos = false) ∧
    (∀ pos : ℤ × ℤ × ℤ, pos ∉ latFail.readFails →
      (isSpawnerBlockPresent cfgInit latFail pos = true ↔
        latFail.getId pos = some cfgInit.spawnerBlockId)) ∧
    (∀ x y z id : ℤ, (x, y, z) ∈ latFail.writeFails → setBlock latFail x y z id = latFail) ∧
    (∀ (st : GrowState) (c : ℤ × ℤ) (cs : List (ℤ × ℤ)),
      (c :: cs).foldl (stepColumn cfgInit tGrow 0) st
        = cs.foldl (stepColumn cfgInit tGrow 0) (stepColumn cfgInit tGrow 0 st c))) :=
  ⟨⟨by decide, by decide⟩, gridFailure_containment cfgInit latFail tGrow 0⟩

/-- A target bound to the absent marker `(10, 3, 10)` while a live marker
sits at `(0, 3, 0)`. -/
def tBound : Target :=
  { x := 10, y := 5, z := 10, startTime := 0, spawnerPosition := some (10, 3, 10),
    isActive := true }

def stTwo : TState :=
  { lattice := latMark, currentTarget := some tBound, completedTargets := [],
    spawnerPositions := [(10, 3, 10), (0, 3, 0)], hasInitialSpawners := true }

/-- Oracle proposing offset `(6, 0)` from the first live spawner. -/
def oSix : RandOracle := fun _ => (0, (6, 0))

/-- Oracle proposing offset `(0, 6)` from the first live spawner. -/
def oSixZ : RandOracle := fun _ => (0, (0, 6))

/-- Witness for C10: a destruction tick in which both selections succeed,
placing two markers and binding only the second. -/
theorem terraformStep_double_selection_witness :
    (stTwo.currentTarget = some tBound ∧ tBound.isActive = true ∧
        tBound.spawnerPosition = some (10, 3, 10) ∧
        isSpawnerBlockPresent cfgFlat stTwo.lattice (10, 3, 10) = false ∧
        stTwo.hasInitialSpawners = true ∧
        findValidSpawnerPosition cfgFlat stTwo.lattice stTwo.spawnerPositions oSix
          = some (6, 0)) ∧
    (((terraformStep cfgFlat stTwo 0 oSix oSixZ).currentTarget = some
      { x := 0
        y := cfgFlat.targetHeight
        z := 6
        startTime := 0
        spawnerPosition := some (0,
          max (getCurrentHeight cfgFlat
            (setBlock stTwo.lattice 6
              (max (getCurrentHeight cfgFlat stTwo.lattice 6 0 + 2) 2) 0
              cfgFlat.spawnerBlockId) 0 6 + 2) 2, 6)
        isActive := true }) ∧
    ((6, max (getCurrentHeight cfgFlat stTwo.lattice 6 0 + 2) 2, 0)
      ∈ (terraformStep cfgFlat stTwo 0 oSix oSixZ).spawnerPositions) ∧
    ((0,
        max (getCurrentHeight cfgFlat
          (setBlock stTwo.lattice 6
            (max (getCurrentHeight cfgFlat stTwo.lattice 6 0 + 2) 2) 0
            cfgFlat.spawnerBlockId) 0 6 + 2) 2, 6)
      ∈ (terraformStep cfgFlat stTwo 0 oSix oSixZ).spawnerPositions) ∧
    ((terraformStep cfgFlat stTwo 0 oSix oSixZ).completedTargets
        = stTwo.completedTargets) ∧
    ((6, max (getCurrentHeight cfgFlat stTwo.lattice 6 0 + 2) 2, 0)
        ≠ (0,
            max (getCurrentHeight cfgFlat
              (setBlock stTwo.lattice 6
                (max (getCurrentHeight cfgFlat stTwo.lattice 6 0 + 2) 2) 0
                cfgFlat.spawnerBlockId) 0 6 + 2) 2, 6) →
      ∀ tt : Target, (terraformStep cfgFlat stTwo 0 oSix oSixZ).currentTarget = some tt →
        tt.spawnerPosition
          ≠ some (6, max (getCurrentHeight cfgFlat stTwo.lattice 6 0 + 2) 2, 0))) :=
  by
  refine ⟨⟨rfl, rfl, rfl, by decide, rfl, by decide⟩, ?_⟩
  have h := terraformStep_double_selection cfgFlat stTwo 0 oSix oSixZ tBound (10, 3, 10)
    (6, 0) (0, 6) rfl rfl rfl (by decide) rfl (by decide) (by decide) (by decide)
  simpa using h

end Terraforming
